import Mathlib

/-!
# Verification of the BudgetPrimer core against its specification

This file shallowly embeds the core of the BudgetPrimer repository in Lean 4:

* `src/budgetprimer/models/budget_allocation.py` — the `BudgetSection` and
  `FundType` enums, `FundType.from_string`, and the `BudgetAllocation` record;
* `src/budgetprimer/parsers/fast_parser.py` — the line-oriented extraction
  state machine `_extract_allocations` (including a faithful model of the
  Python `re` patterns it uses) and `_remove_suspicious_duplicates`;
* `src/budgetprimer/pipeline/transformer.py` — `transform_to_post_veto`,
  `_apply_veto_change` and `validate_budget_data`;
* `src/budgetprimer/pipeline/processor.py` — `aggregate_by_category`.

Monetary amounts (Python floats that are always produced via `float(int(…))`
from digit strings, or carried through unchanged) are modelled as `Int`;
percentage shares are modelled as `Rat`.  Python's `None` is modelled with
`Option`.  The theorems at the end of the file settle the frozen claims.
-/

namespace BudgetPrimer

/-! ## Character-level helpers mirroring Python string behaviour -/

/-- `\s` of Python `re` on the character set that can occur here, plus the
non-breaking space that the source handles explicitly. -/
def pyIsSpace (c : Char) : Bool :=
  c = ' ' || c = '\t' || c = '\n' || c = '\r' || c = '\x0b' || c = '\x0c' || c = ' '

/-- `[A-Z]` without `re.IGNORECASE`. -/
def isUpperAZ (c : Char) : Bool :=
  'A' ≤ c && c ≤ 'Z'

/-- `[A-Z]` under `re.IGNORECASE`. -/
def isLetterAZ (c : Char) : Bool :=
  isUpperAZ c || ('a' ≤ c && c ≤ 'z')

/-- `\d` (documents are ASCII). -/
def isDigitC (c : Char) : Bool :=
  '0' ≤ c && c ≤ '9'

/-- `[\d,]`. -/
def isDigitComma (c : Char) : Bool :=
  isDigitC c || c = ','

/-- `[A-Z0-9]` under `re.IGNORECASE`. -/
def isAlnumAZ (c : Char) : Bool :=
  isLetterAZ c || isDigitC c

/-- `.` in a pattern: any character except a newline. -/
def isDotChar (c : Char) : Bool :=
  c ≠ '\n'

/-- Python `str.strip()` on a list of characters. -/
def pyStrip (s : List Char) : List Char :=
  ((s.dropWhile pyIsSpace).reverse.dropWhile pyIsSpace).reverse

/-- Contiguous-substring test, Python's `needle in hay`. -/
def containsSub (needle hay : List Char) : Bool :=
  match hay with
  | [] => needle.isEmpty
  | _ :: t => needle.isPrefixOf hay || containsSub needle t

/-- Python `s.replace(',', '')`. -/
def dropCommas (s : List Char) : List Char :=
  s.filter (fun c => c ≠ ',')

/-- Python `re.sub(r'[^\d]', '', s)`. -/
def keepDigits (s : List Char) : List Char :=
  s.filter isDigitC

/-- Numeric value of a digit string. -/
def digitsToNat : List Char → Nat
  | [] => 0
  | c :: t => (digitsToNat t) + (c.toNat - '0'.toNat) * (10 ^ t.length)

/-- Python `int(s)` on a string of digits: fails (raises `ValueError`)
exactly when the string is empty; our call sites only ever pass strings of
digits. -/
def pyInt (s : List Char) : Option Nat :=
  if s.isEmpty then none else some (digitsToNat s)

/-- Python `str.upper()` on the ASCII strings occurring here. -/
def pyUpper (s : List Char) : List Char :=
  s.map Char.toUpper

/-- Python truthiness of an optional string (`None` and `''` are falsy). -/
def strTruthy : Option (List Char) → Bool
  | none => false
  | some s => !s.isEmpty

/-! ## A small backtracking regex engine

The parser dispatches on Python `re` patterns.  `RE` is an abstract syntax
for exactly the constructs those patterns use; `reMatch` is a backtracking
matcher with Python's preference order (left alternative first, greedy
quantifiers longest-first, lazy quantifiers shortest-first).  Quantified
subexpressions in the source patterns are all single character classes, so
the engine only needs class-level quantifiers (plus finite `opt`/`alt`
over subpatterns), which keeps it structurally recursive. -/

inductive RE where
  | eps : RE
  | cls (p : Char → Bool) : RE
  | seq (a b : RE) : RE
  | alt (a b : RE) : RE
  | opt (r : RE) : RE
  | starCls (p : Char → Bool) : RE
  | plusCls (p : Char → Bool) : RE
  | lazyPlusCls (p : Char → Bool) : RE
  | repCls (n : Nat) (p : Char → Bool) : RE
  | grp (n : Nat) (r : RE) : RE
  | look (r : RE) : RE
  | eos : RE

/-- Captured groups: group number paired with captured text; the head is the
most recent capture.  A group that matched the empty string is recorded as
`[]` (Python `''`), an unexercised group is simply absent (Python `None`). -/
def Caps := List (Nat × List Char)

/-- `m.group n`. -/
def capGet (caps : Caps) (n : Nat) : Option (List Char) :=
  (List.find? (fun p => p.1 = n) caps).map (fun p => p.2)

/-- First success over a list of candidates. -/
def firstSome (f : Nat → Option α) : List Nat → Option α
  | [] => none
  | n :: t =>
    match f n with
    | some x => some x
    | none => firstSome f t

/-- Backtracking matcher in continuation-passing style.  `k` receives the
captures so far and the remaining input; the result is the first overall
success in Python's preference order. -/
def reMatch : RE → List Char → Caps → (Caps → List Char → Option Caps) → Option Caps
  | .eps, s, caps, k => k caps s
  | .cls p, s, caps, k =>
    match s with
    | [] => none
    | c :: t => if p c then k caps t else none
  | .seq a b, s, caps, k => reMatch a s caps (fun caps1 s1 => reMatch b s1 caps1 k)
  | .alt a b, s, caps, k =>
    match reMatch a s caps k with
    | some r => some r
    | none => reMatch b s caps k
  | .opt r, s, caps, k =>
    match reMatch r s caps k with
    | some res => some res
    | none => k caps s
  | .starCls p, s, caps, k =>
    let maxRun := (s.takeWhile p).length
    firstSome (fun n => k caps (s.drop n)) ((List.range (maxRun + 1)).reverse)
  | .plusCls p, s, caps, k =>
    let maxRun := (s.takeWhile p).length
    firstSome (fun n => if n = 0 then none else k caps (s.drop n)) ((List.range (maxRun + 1)).reverse)
  | .lazyPlusCls p, s, caps, k =>
    let maxRun := (s.takeWhile p).length
    firstSome (fun n => if n = 0 then none else k caps (s.drop n)) (List.range (maxRun + 1))
  | .repCls n p, s, caps, k =>
    if (s.take n).length = n && (s.take n).all p then k caps (s.drop n) else none
  | .grp n r, s, caps, k =>
    reMatch r s caps (fun caps1 s1 => k ((n, s.take (s.length - s1.length)) :: caps1) s1)
  | .look r, s, caps, k =>
    match reMatch r s caps (fun c _ => some c) with
    | some _ => k caps s
    | none => none
  | .eos, s, caps, k =>
    match s with
    | [] => k caps s
    | _ :: _ => none

/-- `pattern.match(s)`: anchored at the start, need not consume everything. -/
def reMatchAt (r : RE) (s : List Char) : Option Caps :=
  reMatch r s [] (fun caps _ => some caps)

/-- `re.search(pattern, s)`: leftmost starting position wins. -/
def reSearch (r : RE) (s : List Char) : Option Caps :=
  match reMatchAt r s with
  | some caps => some caps
  | none =>
    match s with
    | [] => none
    | _ :: t => reSearch r t

/-- Concatenation of a pattern list. -/
def reCat (l : List RE) : RE :=
  l.foldr RE.seq RE.eps

/-- A literal word, optionally case-insensitive. -/
def reStr (ignorecase : Bool) (w : String) : RE :=
  reCat (w.data.map (fun c => RE.cls (fun d =>
    if ignorecase then d.toUpper = c.toUpper else d = c)))

/-! ### The compiled patterns of fast_parser.py

Group numbers follow the position of the opening parenthesis in the Python
pattern.  Patterns compiled with `re.IGNORECASE` use `isLetterAZ`/`isAlnumAZ`
for `[A-Z]`/`[A-Z0-9]`; the inline patterns without flags use `isUpperAZ`. -/

/-- `'category'`: `^\s*([A-Z])\.\s+(.+?)(?=\s*\([A-Z]+\)|$)` (IGNORECASE). -/
def patCategory : RE := reCat [
  RE.starCls pyIsSpace,
  RE.grp 1 (RE.cls isLetterAZ),
  RE.cls (fun c => c = '.'),
  RE.plusCls pyIsSpace,
  RE.grp 2 (RE.lazyPlusCls isDotChar),
  RE.look (RE.alt
    (reCat [RE.starCls pyIsSpace, RE.cls (fun c => c = '('),
            RE.plusCls isLetterAZ, RE.cls (fun c => c = ')')])
    RE.eos)]

/-- `'program'`: `^\s*\d+\.\s+([A-Z0-9]+)\s*[-–]\s*(.+)` (IGNORECASE). -/
def patProgram : RE := reCat [
  RE.starCls pyIsSpace, RE.plusCls isDigitC, RE.cls (fun c => c = '.'),
  RE.plusCls pyIsSpace, RE.grp 1 (RE.plusCls isAlnumAZ), RE.starCls pyIsSpace,
  RE.cls (fun c => c = '-' || c = '–'), RE.starCls pyIsSpace,
  RE.grp 2 (RE.plusCls isDotChar)]

/-- `'investment_capital'`:
`^\s*INVESTMENT\s+CAPITAL(?:\s+([A-Z0-9]+)\s+([\d,]+)([A-Z]?)(?:\s+([\d,]+)([A-Z]?))?)?`
(IGNORECASE). -/
def patInvestmentCapital : RE := reCat [
  RE.starCls pyIsSpace, reStr true "INVESTMENT", RE.plusCls pyIsSpace,
  reStr true "CAPITAL",
  RE.opt (reCat [
    RE.plusCls pyIsSpace, RE.grp 1 (RE.plusCls isAlnumAZ), RE.plusCls pyIsSpace,
    RE.grp 2 (RE.plusCls isDigitComma), RE.grp 3 (RE.opt (RE.cls isLetterAZ)),
    RE.opt (reCat [
      RE.plusCls pyIsSpace, RE.grp 4 (RE.plusCls isDigitComma),
      RE.grp 5 (RE.opt (RE.cls isLetterAZ))])])]

/-- `'indented_single_amount'`:
`^[\s ]*([A-Z]+)[\s ]+([\d,]+)([A-Z])(?:[\s ]*[A-Z])?$` (IGNORECASE). -/
def patIndentedSingle : RE := reCat [
  RE.starCls pyIsSpace, RE.grp 1 (RE.plusCls isLetterAZ), RE.plusCls pyIsSpace,
  RE.grp 2 (RE.plusCls isDigitComma), RE.grp 3 (RE.cls isLetterAZ),
  RE.opt (reCat [RE.starCls pyIsSpace, RE.cls isLetterAZ]), RE.eos]

/-- Shared core `([A-Z]+)\s+([\d,]+)([A-Z]?)(?:\s+([\d,]+)([A-Z]?))?\s*$`,
parametrised by the letter class (IGNORECASE or not). -/
def patAmountCore (letters : Char → Bool) : RE := reCat [
  RE.grp 1 (RE.plusCls letters), RE.plusCls pyIsSpace,
  RE.grp 2 (RE.plusCls isDigitComma), RE.grp 3 (RE.opt (RE.cls letters)),
  RE.opt (reCat [RE.plusCls pyIsSpace, RE.grp 4 (RE.plusCls isDigitComma),
                 RE.grp 5 (RE.opt (RE.cls letters))]),
  RE.starCls pyIsSpace, RE.eos]

/-- `'indented_amount'` / `'investment_line'` / `'amount_line'`:
`^\s*([A-Z]+)\s+([\d,]+)([A-Z]?)(?:\s+([\d,]+)([A-Z]?))?\s*$` (IGNORECASE);
the `[\s ]` classes of `'indented_amount'` coincide with `\s`. -/
def patIndentedAmount : RE :=
  RE.seq (RE.starCls pyIsSpace) (patAmountCore isLetterAZ)

/-- `'amount_with_fund_suffix'`:
`^\s*([A-Z]+)\s+([\d,]+)([A-Z])\s+([\d,]+)([A-Z]?)\s*$` (IGNORECASE). -/
def patAmountWithFundSuffix : RE := reCat [
  RE.starCls pyIsSpace, RE.grp 1 (RE.plusCls isLetterAZ), RE.plusCls pyIsSpace,
  RE.grp 2 (RE.plusCls isDigitComma), RE.grp 3 (RE.cls isLetterAZ),
  RE.plusCls pyIsSpace, RE.grp 4 (RE.plusCls isDigitComma),
  RE.grp 5 (RE.opt (RE.cls isLetterAZ)), RE.starCls pyIsSpace, RE.eos]

/-- The inline `pdf_pattern` of the OPERATING branch:
`^\s*OPERATING\s+([A-Z]+)\s+([\d,]+)([A-Z])\s+([A-Z])\s*$` (no flags; used
with `re.search`, but the `^` anchor makes that a match at position 0). -/
def patPdfOperating : RE := reCat [
  RE.starCls pyIsSpace, reStr false "OPERATING", RE.plusCls pyIsSpace,
  RE.grp 1 (RE.plusCls isUpperAZ), RE.plusCls pyIsSpace,
  RE.grp 2 (RE.plusCls isDigitComma), RE.grp 3 (RE.cls isUpperAZ),
  RE.plusCls pyIsSpace, RE.grp 4 (RE.cls isUpperAZ), RE.starCls pyIsSpace, RE.eos]

/-- `'section_with_amounts'`:
`^\s*([A-Z]+)\s+([A-Z]+)\s+([\d,]+)([A-Z]?)(?:\s+([\d,]+)([A-Z]?))?\s*$`
(IGNORECASE). -/
def patSectionWithAmounts : RE := reCat [
  RE.starCls pyIsSpace, RE.grp 1 (RE.plusCls isLetterAZ), RE.plusCls pyIsSpace,
  RE.grp 2 (RE.plusCls isLetterAZ), RE.plusCls pyIsSpace,
  RE.grp 3 (RE.plusCls isDigitComma), RE.grp 4 (RE.opt (RE.cls isLetterAZ)),
  RE.opt (reCat [RE.plusCls pyIsSpace, RE.grp 5 (RE.plusCls isDigitComma),
                 RE.grp 6 (RE.opt (RE.cls isLetterAZ))]),
  RE.starCls pyIsSpace, RE.eos]

/-- `'section'`:
`^\s*(OPERATING|(INVESTMENT\s+CAPITAL)(?:\s+([A-Z]{3})\s+([\d,]+[A-Z])\s+([\d,]+[A-Z]))?)`
(IGNORECASE). -/
def patSection : RE := reCat [
  RE.starCls pyIsSpace,
  RE.grp 1 (RE.alt
    (reStr true "OPERATING")
    (reCat [
      RE.grp 2 (reCat [reStr true "INVESTMENT", RE.plusCls pyIsSpace, reStr true "CAPITAL"]),
      RE.opt (reCat [
        RE.plusCls pyIsSpace, RE.grp 3 (RE.repCls 3 isLetterAZ),
        RE.plusCls pyIsSpace, RE.grp 4 (reCat [RE.plusCls isDigitComma, RE.cls isLetterAZ]),
        RE.plusCls pyIsSpace, RE.grp 5 (reCat [RE.plusCls isDigitComma, RE.cls isLetterAZ])])]))]

/-- The inline search of the section fallback (line 610):
`([A-Z]+)\s+([\d,]+)([A-Z]?)(?:\s+([\d,]+)([A-Z]?))?\s*$` (no flags, `re.search`). -/
def patAmountSearch : RE := patAmountCore isUpperAZ

/-- `'operating_line'`:
`^OPERATING\s+([A-Z]+)\s+([\d,]+)([A-Z])(?:\s+([\d,]+)([A-Z]?))?\s*$` (IGNORECASE). -/
def patOperatingLine : RE := reCat [
  reStr true "OPERATING", RE.plusCls pyIsSpace, RE.grp 1 (RE.plusCls isLetterAZ),
  RE.plusCls pyIsSpace, RE.grp 2 (RE.plusCls isDigitComma), RE.grp 3 (RE.cls isLetterAZ),
  RE.opt (reCat [RE.plusCls pyIsSpace, RE.grp 4 (RE.plusCls isDigitComma),
                 RE.grp 5 (RE.opt (RE.cls isLetterAZ))]),
  RE.starCls pyIsSpace, RE.eos]

/-- The inline pattern of the dead 30-space continuation branch (line 667):
`^\s+([A-Z]+)\s+([\d,]+)([A-Z]?)(?:\s+([\d,]+)([A-Z]?))?\s*$` (no flags). -/
def patIndentedContinuation : RE :=
  RE.seq (RE.plusCls pyIsSpace) (patAmountCore isUpperAZ)

/-- The inline search at line 672:
`([A-Z]+)?\s*([\d,]+)([A-Z])(?:\s+[A-Z])?\s*$` (no flags, `re.search`). -/
def patTrailingAmount1 : RE := reCat [
  RE.opt (RE.grp 1 (RE.plusCls isUpperAZ)), RE.starCls pyIsSpace,
  RE.grp 2 (RE.plusCls isDigitComma), RE.grp 3 (RE.cls isUpperAZ),
  RE.opt (reCat [RE.plusCls pyIsSpace, RE.cls isUpperAZ]),
  RE.starCls pyIsSpace, RE.eos]

/-- The inline search at line 675:
`([A-Z]+)?\s*([\d,]+)(?:\s+)([A-Z])\s*$` (no flags, `re.search`). -/
def patTrailingAmount2 : RE := reCat [
  RE.opt (RE.grp 1 (RE.plusCls isUpperAZ)), RE.starCls pyIsSpace,
  RE.grp 2 (RE.plusCls isDigitComma), RE.plusCls pyIsSpace,
  RE.grp 3 (RE.cls isUpperAZ), RE.starCls pyIsSpace, RE.eos]

/-! ## `BudgetSection` and `FundType` (models/budget_allocation.py) -/

inductive BudgetSection where
  | OPERATING
  | CAPITAL_IMPROVEMENT
  | ONE_TIME
  | UNSPECIFIED
deriving DecidableEq

/-- The `.value` strings of `BudgetSection`. -/
def BudgetSection.value : BudgetSection → String
  | .OPERATING => "Operating"
  | .CAPITAL_IMPROVEMENT => "Capital Improvement"
  | .ONE_TIME => "One-Time"
  | .UNSPECIFIED => "Unspecified"

inductive FundType where
  | GENERAL
  | SPECIAL
  | GENERAL_OBLIGATION_BOND
  | GENERAL_OBLIGATION_BOND_SPECIAL
  | REVENUE_BOND
  | FEDERAL_AID_INTERSTATE
  | FEDERAL_AID_PRIMARY
  | FEDERAL_AID_SECONDARY
  | FEDERAL_AID_URBAN
  | FEDERAL
  | OTHER_FEDERAL
  | PRIVATE_CONTRIBUTIONS
  | COUNTY
  | TRUST
  | INTERDEPARTMENTAL
  | ARP
  | REVOLVING
  | OTHER
  | UNKNOWN
deriving DecidableEq

/-- Enum member iteration order (`for member in cls`). -/
def FundType.members : List FundType :=
  [.GENERAL, .SPECIAL, .GENERAL_OBLIGATION_BOND, .GENERAL_OBLIGATION_BOND_SPECIAL,
   .REVENUE_BOND, .FEDERAL_AID_INTERSTATE, .FEDERAL_AID_PRIMARY, .FEDERAL_AID_SECONDARY,
   .FEDERAL_AID_URBAN, .FEDERAL, .OTHER_FEDERAL, .PRIVATE_CONTRIBUTIONS, .COUNTY,
   .TRUST, .INTERDEPARTMENTAL, .ARP, .REVOLVING, .OTHER, .UNKNOWN]

/-- `member.value`: the single-letter fund code. -/
def FundType.value : FundType → String
  | .GENERAL => "A"
  | .SPECIAL => "B"
  | .GENERAL_OBLIGATION_BOND => "C"
  | .GENERAL_OBLIGATION_BOND_SPECIAL => "D"
  | .REVENUE_BOND => "E"
  | .FEDERAL_AID_INTERSTATE => "J"
  | .FEDERAL_AID_PRIMARY => "K"
  | .FEDERAL_AID_SECONDARY => "L"
  | .FEDERAL_AID_URBAN => "M"
  | .FEDERAL => "N"
  | .OTHER_FEDERAL => "P"
  | .PRIVATE_CONTRIBUTIONS => "R"
  | .COUNTY => "S"
  | .TRUST => "T"
  | .INTERDEPARTMENTAL => "U"
  | .ARP => "V"
  | .REVOLVING => "W"
  | .OTHER => "X"
  | .UNKNOWN => "Z"

/-- `member.name`: the Python identifier of the enum member. -/
def FundType.pyName : FundType → String
  | .GENERAL => "GENERAL"
  | .SPECIAL => "SPECIAL"
  | .GENERAL_OBLIGATION_BOND => "GENERAL_OBLIGATION_BOND"
  | .GENERAL_OBLIGATION_BOND_SPECIAL => "GENERAL_OBLIGATION_BOND_SPECIAL"
  | .REVENUE_BOND => "REVENUE_BOND"
  | .FEDERAL_AID_INTERSTATE => "FEDERAL_AID_INTERSTATE"
  | .FEDERAL_AID_PRIMARY => "FEDERAL_AID_PRIMARY"
  | .FEDERAL_AID_SECONDARY => "FEDERAL_AID_SECONDARY"
  | .FEDERAL_AID_URBAN => "FEDERAL_AID_URBAN"
  | .FEDERAL => "FEDERAL"
  | .OTHER_FEDERAL => "OTHER_FEDERAL"
  | .PRIVATE_CONTRIBUTIONS => "PRIVATE_CONTRIBUTIONS"
  | .COUNTY => "COUNTY"
  | .TRUST => "TRUST"
  | .INTERDEPARTMENTAL => "INTERDEPARTMENTAL"
  | .ARP => "ARP"
  | .REVOLVING => "REVOLVING"
  | .OTHER => "OTHER"
  | .UNKNOWN => "UNKNOWN"

/-- Python `value.upper().replace(' ', '_')`. -/
def normalizeFundName (s : List Char) : List Char :=
  (pyUpper s).map (fun c => if c = ' ' then '_' else c)

/-- `FundType.from_string` (models/budget_allocation.py, lines 74–98).

Works on the character list of the argument.  The three stages mirror the
source: single-letter code lookup, exact enum-name lookup (`cls[normalized]`),
then prefix/substring match against member names, defaulting to `UNKNOWN`. -/
def FundType.fromString (value : List Char) : FundType :=
  if value.isEmpty then .UNKNOWN
  else
    match (if value.length = 1 then
             FundType.members.find? (fun m => m.value.data = pyUpper value)
           else none) with
    | some m => m
    | none =>
      let normalized := normalizeFundName value
      match FundType.members.find? (fun m => m.pyName.data = normalized) with
      | some m => m
      | none =>
        match FundType.members.find? (fun m =>
            normalized.isPrefixOf m.pyName.data || containsSub normalized m.pyName.data) with
        | some m => m
        | none => .UNKNOWN

/-! ## `BudgetAllocation` (models/budget_allocation.py) -/

/-- One monetary line item.  Fields that the Python code can leave as `None`
are `Option`s; `amount` is the integer number of dollars (the source only
ever constructs it as `float(int(…))` of a digit string, or carries it
through unchanged). -/
structure BudgetAllocation where
  program_id : Option String
  program_name : Option String
  department_code : Option String
  department_name : Option String
  «section» : BudgetSection
  fund_type : FundType
  fiscal_year : Int
  amount : Int
  positions : Option Int := none
  ceiling : Option Int := none
  allocation_type : Option String := none
  category : Option String := none
  subcategory : Option String := none
  notes : String := ""
  line_number : Option Nat := none
deriving DecidableEq

/-! ## The extraction state machine (`FastBudgetParser._extract_allocations`)

The parser body works on `List Char` (written `Str` below); record fields
are `String`s built with `mkS`.  The Python function keeps all its locals in
one function scope, so variables such as `program_id`, `dept_code`,
`fy26_amount` and `fy27_amount` survive from one loop iteration to the next
and are read (sometimes before being reassigned) by later branches; the
parsing context therefore carries them alongside the `current_*` fields.
An unbound local is `none` at the outer level; reading it raises
`NameError`, which the per-line `except Exception` turns into skipping the
rest of the line.  `ValueError`/`AttributeError` are modelled at the exact
raise sites with the `try`/`except` structure of the source. -/

abbrev Str := List Char

/-- Shorthand for building the `String` stored in a record field. -/
def mkS (s : Str) : String := String.mk s

/-- Python `x or d` where `x` is an optional string (`None` and `''` are
falsy). -/
def pyOr (v : Option Str) (d : Str) : Str :=
  match v with
  | some s => if s.isEmpty then d else s
  | none => d

/-- Parsing context: the `current_*` variables plus the function-scoped
locals of `_extract_allocations` that later iterations can read. -/
structure ParseCtx where
  current_dept : Option Str := none
  current_program : Option Str := none
  current_program_name : Option Str := none
  current_section : Option Str := none
  current_category : Option Str := none
  loc_program_id : Option Str := none
  loc_program_name : Option (Option Str) := none
  loc_dept_code : Option (Option Str) := none
  loc_fy26_amount : Option Str := none
  loc_fy27_amount : Option Str := none

/-- The fixed 11-entry category table of `_extract_allocations`. -/
def categoryMap : List (Str × Str) :=
  [("A".data, "Economic Development".data), ("B".data, "Employment".data),
   ("C".data, "Transportation".data), ("D".data, "Environment".data),
   ("E".data, "Health".data), ("F".data, "Human Services".data),
   ("G".data, "Education".data), ("H".data, "Culture and Recreation".data),
   ("I".data, "Public Safety".data), ("J".data, "Individual Rights".data),
   ("K".data, "Government Operations".data)]

/-- `category_map.get(code, 'Other')`. -/
def categoryLookup (code : Str) : Str :=
  match categoryMap.find? (fun p => p.1 = code) with
  | some p => p.2
  | none => "Other".data

/-- Category-header branch (lines 183–187): sets `current_category` only. -/
def categoryBranch (ctx : ParseCtx) (m : Caps) : ParseCtx :=
  let category_code := pyUpper ((capGet m 1).getD [])
  { ctx with current_category := some (categoryLookup category_code) }

/-- Program-header branch (lines 190–205): resets program context and
clears `current_section`; also (re)binds the `program_id`/`program_name`
locals. -/
def programBranch (ctx : ParseCtx) (m : Caps) : ParseCtx :=
  let program_id := pyStrip ((capGet m 1).getD [])
  let program_name := pyStrip ((capGet m 2).getD [])
  { ctx with
    loc_program_id := some program_id,
    loc_program_name := some (some program_name),
    current_program := some program_id,
    current_program_name := some program_name,
    current_dept := some (program_id.take 3),
    current_section := none }

/-- INVESTMENT CAPITAL branch (lines 208–250). -/
def investmentCapitalBranch (ctx : ParseCtx) (i : Nat) (m : Caps) :
    ParseCtx × List BudgetAllocation :=
  let ctx := { ctx with current_section := some ("INVESTMENT CAPITAL".data) }
  let dept := capGet m 1
  let fy26_amt := dropCommas (pyOr (capGet m 2) ("0".data))
  let fy26_fund := pyOr (capGet m 3) ("C".data)
  let fy27_amt := dropCommas (pyOr (capGet m 4) ("0".data))
  let fy27_fund := pyUpper (pyOr (capGet m 5) fy26_fund)
  let program_name :=
    if strTruthy ctx.current_program_name then ctx.current_program_name.getD []
    else "Unknown Program".data
  let program_id := pyOr ctx.current_program ("UNKNOWN".data)
  let ctx := { ctx with
    loc_program_name := some (some program_name), loc_program_id := some program_id }
  let recs26 :=
    if !fy26_amt.isEmpty && digitsToNat fy26_amt > 0 then
      [{ program_id := some (mkS program_id), program_name := some (mkS program_name),
         department_code := dept.map mkS, department_name := dept.map mkS,
         «section» := BudgetSection.CAPITAL_IMPROVEMENT,
         fund_type := FundType.fromString fy26_fund, fiscal_year := 2026,
         amount := (digitsToNat fy26_amt : Int),
         category := some (mkS (pyOr ctx.current_category ("Uncategorized".data))),
         line_number := some (i + 1) : BudgetAllocation }]
    else []
  let recs27 :=
    if !fy27_amt.isEmpty && digitsToNat fy27_amt > 0 then
      [{ program_id := some (mkS program_id), program_name := some (mkS program_name),
         department_code := dept.map mkS, department_name := dept.map mkS,
         «section» := BudgetSection.CAPITAL_IMPROVEMENT,
         fund_type := FundType.fromString fy27_fund, fiscal_year := 2027,
         amount := (digitsToNat fy27_amt : Int),
         category := some (mkS (pyOr ctx.current_category ("Uncategorized".data))),
         line_number := some (i + 1) : BudgetAllocation }]
    else []
  (ctx, recs26 ++ recs27)

/-- Indented INVESTMENT CAPITAL branch (lines 253–393).  Always consumes the
line; a `ValueError` from `int(...)` aborts the rest of the line, keeping
any record already appended. -/
def indentedBranch (ctx : ParseCtx) (i : Nat) (line : Str) :
    ParseCtx × List BudgetAllocation :=
  let progName : Option String := ctx.current_program_name.map mkS
  let progId : Option String := ctx.current_program.map mkS
  let cat : Option String := some (mkS (pyOr ctx.current_category ("Uncategorized".data)))
  match reMatchAt patIndentedSingle line with
  | some m =>
    let dept := (capGet m 1).getD []
    let fy26_amt :=
      if strTruthy (capGet m 2) then dropCommas ((capGet m 2).getD []) else "0".data
    let fy26_fund := pyUpper (pyOr (capGet m 3) ("A".data))
    (ctx,
      match pyInt fy26_amt with
      | none => []
      | some n =>
        if n > 0 then
          [{ program_id := progId, program_name := progName,
             department_code := some (mkS dept), department_name := some (mkS dept),
             «section» := BudgetSection.CAPITAL_IMPROVEMENT,
             fund_type := FundType.fromString fy26_fund, fiscal_year := 2026,
             amount := (n : Int), category := cat, line_number := some (i + 1),
             notes := mkS ("Investment Capital - Fund Type: ".data ++ fy26_fund) }]
        else [])
  | none =>
  match reMatchAt patIndentedAmount line with
  | some m =>
    let dept := (capGet m 1).getD []
    let fy26_amt :=
      if strTruthy (capGet m 2) then dropCommas ((capGet m 2).getD []) else "0".data
    let fy26_fund := pyUpper (pyOr (capGet m 3) ("A".data))
    let fy27_amt :=
      if strTruthy (capGet m 4) then dropCommas (pyOr (capGet m 4) ("0".data)) else "0".data
    let fy27_fund := pyUpper (pyOr (capGet m 5) fy26_fund)
    (ctx,
      match pyInt fy26_amt with
      | none => []
      | some n26 =>
        let recs26 :=
          if n26 > 0 then
            [{ program_id := progId, program_name := progName,
               department_code := some (mkS dept), department_name := some (mkS dept),
               «section» := BudgetSection.CAPITAL_IMPROVEMENT,
               fund_type := FundType.fromString fy26_fund, fiscal_year := 2026,
               amount := (n26 : Int), category := cat, line_number := some (i + 1),
               notes := mkS ("Investment Capital - Fund Type: ".data ++ fy26_fund) }]
          else []
        match pyInt fy27_amt with
        | none => recs26
        | some n27 =>
          recs26 ++
            (if n27 > 0 then
              [{ program_id := progId, program_name := progName,
                 department_code := some (mkS dept), department_name := some (mkS dept),
                 «section» := BudgetSection.CAPITAL_IMPROVEMENT,
                 fund_type := FundType.fromString fy27_fund, fiscal_year := 2027,
                 amount := (n27 : Int), category := cat, line_number := some (i + 1),
                 notes := mkS ("Investment Capital - Fund Type: ".data ++ fy27_fund) }]
            else []))
  | none =>
  match reMatchAt patIndentedAmount line with
  | some m =>
    let dept := (capGet m 1).getD []
    let recs26data :=
      if strTruthy (capGet m 2) then
        let fy26_amt := dropCommas ((capGet m 2).getD [])
        let fy26_fund := pyUpper (pyOr (capGet m 3) ("A".data))
        some (fy26_amt, fy26_fund)
      else none
    (ctx,
      match recs26data with
      | none => []
      | some (fy26_amt, fy26_fund) =>
        match pyInt fy26_amt with
        | none => []
        | some n26 =>
          let recs26 :=
            if n26 > 0 then
              [{ program_id := progId, program_name := progName,
                 department_code := some (mkS dept), department_name := some (mkS dept),
                 «section» := BudgetSection.CAPITAL_IMPROVEMENT,
                 fund_type := FundType.fromString fy26_fund, fiscal_year := 2026,
                 amount := (n26 : Int), category := cat, line_number := some (i + 1),
                 notes := mkS ("Investment Capital - Fund Type: ".data ++ fy26_fund ++ " - Column 1".data) }]
            else []
          if strTruthy (capGet m 4) then
            let fy27_amt := dropCommas ((capGet m 4).getD [])
            let fy27_fund := pyUpper (if strTruthy (capGet m 3)
              then pyOr (capGet m 5) fy26_fund else "A".data)
            match pyInt fy27_amt with
            | none => recs26
            | some n27 =>
              recs26 ++
                (if n27 > 0 then
                  [{ program_id := progId, program_name := progName,
                     department_code := some (mkS dept), department_name := some (mkS dept),
                     «section» := BudgetSection.CAPITAL_IMPROVEMENT,
                     fund_type := FundType.fromString fy27_fund, fiscal_year := 2027,
                     amount := (n27 : Int), category := cat, line_number := some (i + 1),
                     notes := mkS ("Investment Capital - Fund Type: ".data ++ fy27_fund ++ " - Column 2".data) }]
                else [])
          else recs26)
  | none => (ctx, [])

/-- Fund-suffixed amount-line branch (lines 396–445).  Returns `none` when
`int(...)` raises `ValueError` (caught at line 444): in that case processing
of the line continues with the OPERATING branch, with the locals assigned at
lines 398–402 still updated.  A `NameError` from reading an unbound
`program_id` local (possible when only the second amount is positive) aborts
the line, keeping records already appended. -/
def amountSuffixBranch (ctx : ParseCtx) (i : Nat) (m : Caps) :
    ParseCtx × Option (List BudgetAllocation) :=
  let dept_code := capGet m 1
  let fy26_amount := (capGet m 2).getD []
  let fy26_fund := pyUpper ((capGet m 3).getD [])
  let fy27_amount := (capGet m 4).getD []
  let fy27_fund := pyUpper (pyOr (capGet m 5) fy26_fund)
  let ctx := { ctx with
    loc_dept_code := some dept_code,
    loc_fy26_amount := some fy26_amount, loc_fy27_amount := some fy27_amount }
  match pyInt (keepDigits fy26_amount), pyInt (keepDigits fy27_amount) with
  | some fy26_num, some fy27_num =>
    let section_enum :=
      if strTruthy ctx.current_section &&
         containsSub ("INVESTMENT".data) (pyUpper (ctx.current_section.getD []))
      then BudgetSection.CAPITAL_IMPROVEMENT else BudgetSection.OPERATING
    let ctx :=
      if fy26_num > 0 then
        { ctx with
          loc_program_id := some (pyOr ctx.current_program ("Unknown".data)),
          loc_program_name := some ctx.current_program_name }
      else ctx
    let recs26 :=
      if fy26_num > 0 then
        [{ program_id := some (mkS (pyOr ctx.current_program ("Unknown".data))),
           program_name := ctx.current_program_name.map mkS,
           department_code := dept_code.map mkS, department_name := dept_code.map mkS,
           «section» := if section_enum = BudgetSection.OPERATING
             then BudgetSection.OPERATING else BudgetSection.CAPITAL_IMPROVEMENT,
           fund_type := FundType.fromString fy26_fund, fiscal_year := 2026,
           amount := (fy26_num : Int),
           category := some (mkS (pyOr ctx.current_category ("Uncategorized".data))),
           line_number := some (i + 1) : BudgetAllocation }]
      else []
    if fy27_num > 0 && !fy27_fund.isEmpty then
      match ctx.loc_program_id, ctx.loc_program_name with
      | some pid, some pname =>
        (ctx, some (recs26 ++
          [{ program_id := some (mkS pid), program_name := pname.map mkS,
             department_code := dept_code.map mkS, department_name := dept_code.map mkS,
             «section» := if section_enum = BudgetSection.OPERATING
               then BudgetSection.OPERATING else BudgetSection.CAPITAL_IMPROVEMENT,
             fund_type := FundType.fromString fy27_fund, fiscal_year := 2027,
             amount := (fy27_num : Int),
             category := some (mkS (pyOr ctx.current_category ("Uncategorized".data))),
             line_number := some (i + 1) : BudgetAllocation }]))
      | _, _ => (ctx, some recs26)
    else (ctx, some recs26)
  | _, _ => (ctx, none)

/-- The inline PDF-format OPERATING branch (lines 455–492): emits one FY2026
record with no `> 0` guard on the amount; `int('')` aborts the line. -/
def pdfOperatingBranch (ctx : ParseCtx) (i : Nat) (m : Caps) :
    ParseCtx × List BudgetAllocation :=
  let dept := (capGet m 1).getD []
  let fy26_amt := dropCommas (pyOr (capGet m 2) ("0".data))
  let fy26_fund := pyUpper (pyOr (capGet m 3) ("A".data))
  (ctx,
    match pyInt fy26_amt with
    | none => []
    | some n =>
      [{ program_id := ctx.current_program.map mkS,
         program_name := ctx.current_program_name.map mkS,
         department_code := some (mkS dept), department_name := some (mkS dept),
         «section» := BudgetSection.OPERATING,
         fund_type := FundType.fromString fy26_fund, fiscal_year := 2026,
         amount := (n : Int),
         category := some (mkS (pyOr ctx.current_category ("Uncategorized".data))),
         notes := "", line_number := some (i + 1) : BudgetAllocation }])

/-- The `section_with_amounts` branch (lines 500–558).  On success the line
is consumed; a `ValueError` from `int(...)` (caught at line 557) leaves the
already-assigned locals in place and lets processing fall through to the
trailing-amount block of lines 648–726 (`none` result). -/
def sectionWithAmountsBranch (ctx : ParseCtx) (i : Nat) (m : Caps) :
    ParseCtx × Option (List BudgetAllocation) :=
  let current_section := "OPERATING".data
  let ctx := { ctx with current_section := some current_section }
  let dept_code := capGet m 2
  let fy26_amount := (capGet m 3).getD []
  let fy26_fund := pyUpper (pyOr (capGet m 4) ("A".data))
  let fy27_amount := pyOr (capGet m 5) fy26_amount
  let fy27_fund := pyUpper (pyOr (capGet m 6) fy26_fund)
  let ctx := { ctx with
    loc_dept_code := some dept_code,
    loc_fy26_amount := some fy26_amount, loc_fy27_amount := some fy27_amount }
  match pyInt (keepDigits fy26_amount), pyInt (keepDigits fy27_amount) with
  | some fy26_num, some fy27_num =>
    let section_enum :=
      if containsSub ("INVESTMENT".data) (pyUpper current_section)
      then BudgetSection.CAPITAL_IMPROVEMENT else BudgetSection.OPERATING
    let ctx :=
      if fy26_num > 0 || fy27_num > 0 then
        { ctx with
          loc_program_id := some (pyOr ctx.current_program ("Unknown".data)),
          loc_program_name := some ctx.current_program_name }
      else ctx
    let program_id := pyOr ctx.current_program ("Unknown".data)
    let program_name := ctx.current_program_name
    let mkRec (fy : Int) (fund : Str) (n : Nat) : BudgetAllocation :=
      { program_id := some (mkS program_id), program_name := program_name.map mkS,
        department_code := dept_code.map mkS, department_name := dept_code.map mkS,
        «section» := if section_enum = BudgetSection.OPERATING
          then BudgetSection.OPERATING else BudgetSection.CAPITAL_IMPROVEMENT,
        fund_type := FundType.fromString fund, fiscal_year := fy,
        amount := (n : Int),
        category := some (mkS (pyOr ctx.current_category ("Uncategorized".data))),
        line_number := some (i + 1) }
    (ctx, some ((if fy26_num > 0 then [mkRec 2026 fy26_fund fy26_num] else []) ++
                (if fy27_num > 0 then [mkRec 2027 fy27_fund fy27_num] else [])))
  | _, _ => (ctx, none)

/-- The bare-section attempt of lines 562–607: the `section` pattern, the
`current_section` update, and the `try` at line 573 that reads the
possibly-stale `fy26_amount`, `fy27_amount` and `dept_code` locals.  An
unbound local raises `NameError`, aborting the line (`none` result, with
the `current_section` update kept); a `ValueError` is caught at line 606
and processing falls through to the amount search. -/
def sectionStaleBranch (ctx : ParseCtx) (line : Str) :
    ParseCtx × Option (List BudgetAllocation) :=
  match reMatchAt patSection line with
    | some m =>
      let current_section := pyStrip ((capGet m 1).getD [])
      let ctx := { ctx with current_section := some current_section }
      let ctx :=
        if strTruthy (capGet m 3) && strTruthy (capGet m 4) && strTruthy (capGet m 5) then
          { ctx with
            loc_dept_code := some (some (pyStrip ((capGet m 3).getD []))),
            loc_fy26_amount := some (pyStrip ((capGet m 4).getD [])),
            loc_fy27_amount := some (pyStrip ((capGet m 5).getD [])) }
        else ctx
      match ctx.loc_fy26_amount with
      | none => (ctx, none)
      | some fy26_amount =>
        match pyInt (keepDigits fy26_amount) with
        | none =>
          match ctx.loc_fy27_amount with
          | none => (ctx, some [])
          | some _ => (ctx, some [])
        | some fy26_num =>
          match ctx.loc_fy27_amount with
          | none => (ctx, none)
          | some fy27_amount =>
            match pyInt (keepDigits fy27_amount) with
            | none => (ctx, some [])
            | some fy27_num =>
              let fund_type :=
                match fy26_amount.getLast? with
                | some c => if c.isAlpha then [c] else "A".data
                | none => "A".data
              match ctx.loc_dept_code with
              | none =>
                if fy26_num > 0 || fy27_num > 0 then (ctx, none) else (ctx, some [])
              | some dc =>
                let mkStaleRec (fy : Int) (n : Nat) : BudgetAllocation :=
                  { program_id := some (mkS (pyOr ctx.current_program ("Unknown".data))),
                    program_name := some (mkS (pyOr ctx.current_program ("Unknown Program".data))),
                    department_code := dc.map mkS, department_name := dc.map mkS,
                    «section» := BudgetSection.OPERATING,
                    fund_type := FundType.fromString fund_type, fiscal_year := fy,
                    amount := (n : Int),
                    category := some (mkS (pyOr ctx.current_category ("Uncategorized".data))) }
                (ctx, some ((if fy26_num > 0 then [mkStaleRec 2026 fy26_num] else []) ++
                            (if fy27_num > 0 then [mkStaleRec 2027 fy27_num] else [])))
    | none => (ctx, some [])
/-- The trailing amount search of lines 610–644, returning the context
updates and the records it emits on its own.  The `AttributeError` of
`current_section.upper()` on a `None` section (line 614) and the uncaught
`ValueError`s of `int(...)` at lines 620/633 abort the line after the
assignments already made. -/
def amountSearchBlock (ctx : ParseCtx) (line : Str) :
    ParseCtx × List BudgetAllocation :=
  match reSearch patAmountSearch line with
  | none => (ctx, [])
  | some m =>
    let dept_code := capGet m 1
    let fy26_amount := dropCommas (pyOr (capGet m 2) ("0".data))
    match ctx.current_section with
    | none =>
      ({ ctx with loc_dept_code := some dept_code,
                  loc_fy26_amount := some fy26_amount }, [])
    | some cs =>
      let fy26_fund := pyUpper (pyOr (capGet m 3)
        (if containsSub ("INVESTMENT".data) (pyUpper cs) then "C".data else "A".data))
      let fy27_amount := dropCommas (pyOr (capGet m 4) fy26_amount)
      let fy27_fund := pyUpper (pyOr (capGet m 5) (pyOr (some fy26_fund) ("A".data)))
      let ctx := { ctx with
        loc_dept_code := some dept_code,
        loc_fy26_amount := some fy26_amount, loc_fy27_amount := some fy27_amount }
      let section_enum :=
        if containsSub ("INVESTMENT".data) (pyUpper cs)
        then BudgetSection.CAPITAL_IMPROVEMENT else BudgetSection.OPERATING
      let mkRec (fy : Int) (fund : Str) (n : Nat) : BudgetAllocation :=
        { program_id := some (mkS (pyOr ctx.current_program ("Unknown".data))),
          program_name := some (mkS (pyOr ctx.current_program ("Unknown Program".data))),
          department_code := dept_code.map mkS, department_name := dept_code.map mkS,
          «section» := if section_enum = BudgetSection.OPERATING
            then BudgetSection.OPERATING else BudgetSection.CAPITAL_IMPROVEMENT,
          fund_type := FundType.fromString fund, fiscal_year := fy,
          amount := (n : Int),
          category := some (mkS (pyOr ctx.current_category ("Uncategorized".data))) }
      match pyInt fy26_amount with
      | none => (ctx, [])
      | some n26 =>
        let recs26 := if n26 > 0 then [mkRec 2026 fy26_fund n26] else []
        match pyInt fy27_amount with
        | none => (ctx, recs26)
        | some n27 =>
          (ctx, recs26 ++ (if n27 > 0 then [mkRec 2027 fy27_fund n27] else []))

/-- The `if not section_match:` block (lines 561–646): the bare-section
attempt followed, unless the line was aborted, by the trailing amount
search; the stale-branch records precede the search's records. -/
def notSectionBlock (ctx : ParseCtx) (_i : Nat) (line : Str) :
    ParseCtx × List BudgetAllocation :=
  match sectionStaleBranch ctx line with
  | (ctx, none) => (ctx, [])
  | (ctx, some recsStale) =>
    let after := amountSearchBlock ctx line
    (after.1, recsStale ++ after.2)

/-- One entry of `amount_matches` (lines 648–677): a Python tuple of 3 or 5
group values.  `m0` can be `None` (the optional `([A-Z]+)?` of the inline
searches); the 3-tuples leave `m3`/`m4` absent. -/
structure AmountTuple where
  len : Nat
  m0 : Option Str
  m1 : Str
  m2 : Str
  m3 : Option Str
  m4 : Option Str

/-- Processing of one `amount_matches` tuple (lines 681–726).  A
`ValueError` inside the per-tuple `try` moves on to the next tuple; the
`len(match) < 3` case cannot occur for the tuples actually built. -/
def processTuple (ctx : ParseCtx) (t : AmountTuple) : ParseCtx × List BudgetAllocation :=
  if 3 ≤ t.len then
    let dept_code := t.m0
    let fy26_amount := dropCommas (pyOr (some t.m1) ("0".data))
    let fy26_fund := pyUpper (if 2 < t.len && !t.m2.isEmpty then t.m2 else "A".data)
    let fy27_amount := dropCommas (if 3 < t.len && strTruthy t.m3 then t.m3.getD [] else fy26_amount)
    let fy27_fund0 := pyUpper (if 4 < t.len && strTruthy t.m4 then t.m4.getD [] else fy26_fund)
    let fy27_fund := if fy27_fund0.isEmpty then pyUpper fy26_fund else fy27_fund0
    let ctx := { ctx with
      loc_dept_code := some dept_code,
      loc_fy26_amount := some fy26_amount, loc_fy27_amount := some fy27_amount }
    match (if !fy26_amount.isEmpty then pyInt (keepDigits fy26_amount) else some 0) with
    | none => (ctx, [])
    | some fy26_num =>
      match (if !fy27_amount.isEmpty && !(pyStrip fy27_amount).isEmpty
             then pyInt (keepDigits fy27_amount) else some 0) with
      | none => (ctx, [])
      | some fy27_num =>
        let fund_type :=
          if !fy26_fund.isEmpty then fy26_fund
          else if containsSub ("INVESTMENT".data)
                 (pyUpper (match ctx.current_section with
                           | some s => s
                           | none => "None".data))
          then "C".data else "A".data
        let cs := ctx.current_section.getD []
        let mkRec (fy : Int) (fund : Str) (n : Nat) : BudgetAllocation :=
          { program_id := ctx.current_program.map mkS,
            program_name := ctx.current_program_name.map mkS,
            department_code := dept_code.map mkS, department_name := dept_code.map mkS,
            «section» := if containsSub ("INVESTMENT".data) cs
              then BudgetSection.CAPITAL_IMPROVEMENT else BudgetSection.OPERATING,
            fund_type := FundType.fromString fund, fiscal_year := fy,
            amount := (n : Int),
            category := some (mkS (pyOr ctx.current_category ("Uncategorized".data))) }
        (ctx,
          (if fy26_num > 0 then [mkRec 2026 fund_type fy26_num] else []) ++
          (if fy27_num > 0 then [mkRec 2027 (pyOr (some fy27_fund) fund_type) fy27_num] else []))
  else (ctx, [])

/-- Construction of the `amount_matches` list (lines 648–677). -/
def buildAmountTuples (line : Str) : List AmountTuple :=
  if ("OPERATING".data).isPrefixOf line then
      match reMatchAt patOperatingLine (pyStrip line) with
      | some m =>
        let dept := (capGet m 1).getD []
        let fy26_amt := dropCommas (pyOr (capGet m 2) ("0".data))
        let fy26_fund := pyUpper (pyOr (capGet m 3) ("A".data))
        let fy27_amt :=
          if strTruthy (capGet m 4) then dropCommas (pyOr (capGet m 4) ("0".data))
          else "0".data
        let fy27_fund := pyUpper (pyOr (capGet m 5) fy26_fund)
        [⟨5, some dept, fy26_amt, fy26_fund, some fy27_amt, some fy27_fund⟩]
      | none => []
    else if (List.replicate 30 ' ').isPrefixOf line then
      match reMatchAt patIndentedContinuation line with
      | some m =>
        [⟨5, capGet m 1, (capGet m 2).getD [], (capGet m 3).getD [],
          capGet m 4, capGet m 5⟩]
      | none => []
    else
      match reSearch patTrailingAmount1 (pyStrip line) with
      | some m => [⟨3, capGet m 1, (capGet m 2).getD [], (capGet m 3).getD [], none, none⟩]
      | none =>
        match reSearch patTrailingAmount2 (pyStrip line) with
        | some m => [⟨3, capGet m 1, (capGet m 2).getD [], (capGet m 3).getD [], none, none⟩]
        | none => []

/-- The trailing `amount_matches` block (lines 648–726), reachable directly
only when the `section_with_amounts` branch hit a `ValueError`. -/
def amountMatchesBlock (ctx : ParseCtx) (line : Str) : ParseCtx × List BudgetAllocation :=
  let amount_matches := buildAmountTuples line
  if !amount_matches.isEmpty && strTruthy ctx.current_dept &&
     strTruthy ctx.current_program && strTruthy ctx.current_section then
    amount_matches.foldl
      (fun acc t =>
        let step := processTuple acc.1 t
        (step.1, acc.2 ++ step.2))
      (ctx, [])
  else (ctx, [])

/-- Lines 497–646: the `section_with_amounts` attempt, then either the
`if not section_match` block or (after a `ValueError`) the trailing
`amount_matches` block. -/
def sectionOnward (ctx : ParseCtx) (i : Nat) (line : Str) :
    ParseCtx × List BudgetAllocation :=
  match reMatchAt patSectionWithAmounts line with
  | some m =>
    match sectionWithAmountsBranch ctx i m with
    | (ctx, some recs) => (ctx, recs)
    | (ctx, none) => amountMatchesBlock ctx line
  | none => notSectionBlock ctx i line

/-- Lines 448–492: the substring check for `OPERATING` (which always updates
`current_section`), the inline PDF-format pattern, then the section checks. -/
def operatingOnward (ctx : ParseCtx) (i : Nat) (original_line line : Str) :
    ParseCtx × List BudgetAllocation :=
  if containsSub ("OPERATING".data) original_line then
    let ctx := { ctx with current_section := some ("OPERATING".data) }
    match reMatchAt patPdfOperating original_line with
    | some m => pdfOperatingBranch ctx i m
    | none => sectionOnward ctx i line
  else sectionOnward ctx i line

/-- One iteration of the per-line loop of `_extract_allocations`
(lines 171–731), in the priority order of the source. -/
def processLine (ctx : ParseCtx) (i : Nat) (original_line : Str) :
    ParseCtx × List BudgetAllocation :=
  let line := pyStrip original_line
  if line.isEmpty then (ctx, [])
  else
    match reMatchAt patCategory line with
    | some m => (categoryBranch ctx m, [])
    | none =>
    match reMatchAt patProgram line with
    | some m => (programBranch ctx m, [])
    | none =>
    match reMatchAt patInvestmentCapital line with
    | some m => investmentCapitalBranch ctx i m
    | none =>
    if ctx.current_section = some ("INVESTMENT CAPITAL".data) &&
       strTruthy ctx.current_program &&
       ((match original_line.head? with
         | some c => c = ' ' || c = '\t' || c = ' '
         | none => false) ||
        original_line.any isDigitC) then
      indentedBranch ctx i line
    else
      match reMatchAt patAmountWithFundSuffix line with
      | some m =>
        match amountSuffixBranch ctx i m with
        | (ctx, some recs) => (ctx, recs)
        | (ctx, none) => operatingOnward ctx i original_line line
      | none => operatingOnward ctx i original_line line

/-- `content.split('\n')`. -/
def splitLinesAux (acc : Str) : Str → List Str
  | [] => [acc.reverse]
  | c :: t =>
    if c = '\n' then acc.reverse :: splitLinesAux [] t
    else splitLinesAux (c :: acc) t

def splitLines (s : Str) : List Str :=
  splitLinesAux [] s

/-- The enumerated line loop. -/
def extractLoop : ParseCtx → Nat → List Str → List BudgetAllocation
  | _, _, [] => []
  | ctx, i, l :: rest =>
    let pr := processLine ctx i l
    pr.2 ++ extractLoop pr.1 (i + 1) rest

/-- `FastBudgetParser._extract_allocations` on the raw document text. -/
def extractAllocations (content : Str) : List BudgetAllocation :=
  extractLoop {} 0 (splitLines content)

/-! ## `FastBudgetParser._remove_suspicious_duplicates` (lines 735–784)

The source groups with insertion-ordered Python dicts: first by
`(program_id, fiscal_year, section)`, then by exact `amount`.  A dict of
lists is modelled by the ordered list of first-occurrence keys together
with `filter`ing the original list per key. -/

/-- The grouping key of `_remove_suspicious_duplicates`. -/
def dupKey (a : BudgetAllocation) : Option String × Int × BudgetSection :=
  (a.program_id, a.fiscal_year, a.«section»)

/-- Insertion-ordered distinct keys (Python dict key order). -/
def firstKeys {κ : Type} [DecidableEq κ] (key : BudgetAllocation → κ)
    (seen : List κ) : List BudgetAllocation → List κ
  | [] => []
  | a :: rest =>
    if key a ∈ seen then firstKeys key seen rest
    else key a :: firstKeys key (key a :: seen) rest

/-- Processing of one same-amount subgroup: drop all but the first record
when the subgroup has several records and the shared amount exceeds the
$100,000,000 threshold. -/
def processAmountGroup (amount_group : List BudgetAllocation) (amount : Int) :
    List BudgetAllocation :=
  if amount_group.length > 1 && amount > 100000000 then amount_group.take 1
  else amount_group

/-- The inner loop over the same-amount subgroups of one
`(program_id, fiscal_year, section)` group, in amount first-occurrence
(dict) order. -/
def amountSubgroupFold (group : List BudgetAllocation) : List BudgetAllocation :=
  (firstKeys (fun a => a.amount) [] group).foldr
    (fun amt acc2 =>
      processAmountGroup (group.filter (fun a => decide (a.amount = amt))) amt ++ acc2)
    []

/-- `_remove_suspicious_duplicates`. -/
def removeSuspiciousDuplicates (allocations : List BudgetAllocation) :
    List BudgetAllocation :=
  if allocations.isEmpty then allocations
  else
    (firstKeys dupKey [] allocations).foldr
      (fun k acc =>
        amountSubgroupFold (allocations.filter (fun a => decide (dupKey a = k))) ++ acc)
      []

/-! ## The override engine (pipeline/transformer.py) -/

/-- One veto change: a Python dict whose keys may be absent.  `fiscal_year`
and `amount` keep the numeric types the CSV loader produces. -/
structure VetoChange where
  program_id : Option String := none
  fiscal_year : Option Int := none
  fund_type : Option String := none
  amount : Option Int := none
  positions : Option Int := none
  notes : Option String := none

/-- The match condition of `_apply_veto_change` (lines 112–117):
`alloc.program_id == change.get('program_id')`,
`str(alloc.fiscal_year) == str(change.get('fiscal_year', ''))`, and
`alloc.fund_type.value == change.get('fund_type', 'A')`. -/
def matchesChange (change : VetoChange) (alloc : BudgetAllocation) : Bool :=
  alloc.program_id = change.program_id &&
  toString alloc.fiscal_year = (match change.fiscal_year with
                                | some y => toString y
                                | none => "") &&
  alloc.fund_type.value = change.fund_type.getD "A"

/-- The per-match update of `_apply_veto_change` (lines 124–139): copy the
record, then substitute exactly the fields the change provides. -/
def applyChangeFields (change : VetoChange) (alloc : BudgetAllocation) :
    BudgetAllocation :=
  { alloc with
    amount := change.amount.getD alloc.amount,
    fund_type := match change.fund_type with
                 | some v => FundType.fromString v.data
                 | none => alloc.fund_type,
    positions := match change.positions with
                 | some p => some p
                 | none => alloc.positions,
    notes := change.notes.getD alloc.notes }

/-- `_apply_veto_change` (lines 100–141): enumerate the matches of the
change's key; if there are none, return the collection unchanged (warning
only); otherwise replace each matched position with the updated copy. -/
def applyVetoChange (allocations : List BudgetAllocation) (change : VetoChange) :
    List BudgetAllocation :=
  let «matches» := (allocations.enum.filter (fun p => matchesChange change p.2))
  if «matches».isEmpty then allocations
  else
    «matches».foldl (fun acc p => acc.set p.1 (applyChangeFields change p.2)) allocations

/-- `transform_to_post_veto` (lines 63–97): copy the base list, fold the
changes over it, then append the one-time appropriations when a file was
given (the CSV loading itself is I/O and is passed in as the list of
records it produces). -/
def transformToPostVeto (pre_veto_data : List BudgetAllocation)
    (veto_changes : List VetoChange)
    (one_time_appropriations : Option (List BudgetAllocation)) :
    List BudgetAllocation :=
  let post_veto_data := pre_veto_data.map id
  let post_veto_data := veto_changes.foldl applyVetoChange post_veto_data
  match one_time_appropriations with
  | some extra => post_veto_data ++ extra
  | none => post_veto_data

/-! ### A heap-level rendering of the override engine, for the frame claim

Python lists hold references to `BudgetAllocation` objects.  To state that
`transform_to_post_veto` never mutates the base collection's records, the
heap is made explicit: a store of record values, with collections as lists
of store indices.  `_apply_veto_change` builds each `new_alloc` with
`BudgetAllocation(**alloc.__dict__)` — a fresh object appended to the
store — and only rebinds list slots to the fresh index; no existing store
cell is ever written. -/

structure Heap where
  recs : List BudgetAllocation

/-- Store lookup (a junk record for dangling indices, which valid
runs never produce). -/
def Heap.read (h : Heap) (i : Nat) : BudgetAllocation :=
  (h.recs.get? i).getD
    { program_id := none, program_name := none, department_code := none,
      department_name := none, «section» := BudgetSection.UNSPECIFIED,
      fund_type := FundType.UNKNOWN, fiscal_year := 0, amount := 0 }

/-- Heap-level `_apply_veto_change`: matched slots are rebound to freshly
allocated updated copies; the store only grows. -/
def applyVetoChangeH (h : Heap) (ids : List Nat) (change : VetoChange) :
    Heap × List Nat :=
  let «matches» := ids.enum.filter (fun p => matchesChange change (h.read p.2))
  if «matches».isEmpty then (h, ids)
  else
    «matches».foldl
      (fun acc p =>
        let (h, ids) := acc
        let fresh := h.recs.length
        let h := ⟨h.recs ++ [applyChangeFields change (h.read p.2)]⟩
        (h, ids.set p.1 fresh))
      (h, ids)

/-- Heap-level `transform_to_post_veto` (no one-time file): the output list
starts as a copy of the base list of references. -/
def transformToPostVetoH (h : Heap) (base : List Nat)
    (veto_changes : List VetoChange) : Heap × List Nat :=
  veto_changes.foldl (fun acc c => applyVetoChangeH acc.1 acc.2 c) (h, base.map id)

/-! ## `validate_budget_data` (transformer.py, lines 176–220) -/

/-- `f"Allocation {i}: Missing required field '{field}'"`. -/
def missingFieldError (i : Nat) (fieldName : String) : String :=
  mkS (("Allocation ".data) ++ (toString i).data ++
       (": Missing required field '".data) ++ fieldName.data ++ ("'".data))

def requiredFieldErrors (i : Nat) (alloc : BudgetAllocation) : List String :=
  (if alloc.program_id.getD "" = "" then [missingFieldError i "program_id"] else []) ++
  (if alloc.program_name.getD "" = "" then [missingFieldError i "program_name"] else []) ++
  (if alloc.department_code.getD "" = "" then [missingFieldError i "department_code"] else []) ++
  (if alloc.fiscal_year = 0 then [missingFieldError i "fiscal_year"] else []) ++
  (if alloc.amount = 0 then [missingFieldError i "amount"] else [])

/-- The display used for the optional program id in error strings (`None`
prints as `None` in a Python f-string). -/
def pidStr (alloc : BudgetAllocation) : String :=
  match alloc.program_id with
  | some s => s
  | none => "None"

/-- `f"Allocation {i} (Program {pid}, FY{fy}): "` prefix of the two keyed
error messages. -/
def allocPrefix (i : Nat) (alloc : BudgetAllocation) : List Char :=
  ("Allocation ".data) ++ (toString i).data ++ (" (Program ".data) ++
  (pidStr alloc).data ++ (", FY".data) ++ (toString alloc.fiscal_year).data ++
  ("): ".data)

/-- The error appended at lines 214–218 for a negative amount. -/
def negAmountError (i : Nat) (alloc : BudgetAllocation) : String :=
  mkS (allocPrefix i alloc ++ ("Negative amount: ".data) ++ (toString alloc.amount).data)

/-- Errors of one allocation (loop body, lines 200–218). -/
def allocationErrors (require_fund_type : Bool) (i : Nat)
    (alloc : BudgetAllocation) : List String :=
  requiredFieldErrors i alloc ++
  (if require_fund_type && alloc.fund_type = FundType.UNKNOWN then
    [mkS (allocPrefix i alloc ++ ("Missing or invalid fund type".data))]
  else []) ++
  (if alloc.amount < 0 then [negAmountError i alloc] else [])

/-- `validate_budget_data`: a total function returning the validity flag and
the ordered error list (it never raises). -/
def validateBudgetData (allocations : List BudgetAllocation)
    (require_fund_type : Bool) : Bool × List String :=
  if allocations.isEmpty then (false, ["No budget allocations provided"])
  else
    let errors := (allocations.enum.map
      (fun p => allocationErrors require_fund_type p.1 p.2)).flatten
    (errors.length = 0, errors)

/-! ## `aggregate_by_category` (processor.py, lines 67–108)

A data frame row is a group key together with the value of the aggregated
column; grouping keys are abstract with decidable equality.  `groupby` with
`sort=True` orders groups by key and `sort_values(ascending=False)` then
orders by subtotal; neither reordering affects the per-group sums or the
grand total, and the claim quantifies over membership, so the output keeps
the deterministic first-occurrence group order composed with the descending
stable sort by subtotal. -/

/-- Ordered first-occurrence keys of a row list. -/
def rowKeys {κ : Type} [DecidableEq κ] (seen : List κ) :
    List (κ × Int) → List κ
  | [] => []
  | r :: rest =>
    if r.1 ∈ seen then rowKeys seen rest
    else r.1 :: rowKeys (r.1 :: seen) rest

/-- Per-group sums (`df.groupby(group_cols)[agg_col].sum()`). -/
def groupSums {κ : Type} [DecidableEq κ] (rows : List (κ × Int)) :
    List (κ × Int) :=
  (rowKeys [] rows).map (fun k =>
    (k, ((rows.filter (fun r => r.1 = k)).map (fun r => r.2)).sum))

/-- `aggregate_by_category`: group sums, stable descending sort by the
aggregated column, then the percentage column — `0` for every row when the
grand total is not positive (no division is performed). -/
def aggregateByCategory {κ : Type} [DecidableEq κ] (rows : List (κ × Int)) :
    List (κ × Int × Rat) :=
  if rows.isEmpty then []
  else
    let agg := (groupSums rows).insertionSort (fun a b => a.2 ≥ b.2)
    let total : Int := (agg.map (fun r => r.2)).sum
    agg.map (fun r =>
      (r.1, r.2, if total > 0 then ((r.2 : Rat) / (total : Rat)) * 100 else 0))

/-! ## Helper lemmas -/

theorem containsSub_self_append (needle q : List Char) :
    containsSub needle (needle ++ q) = true := by
  cases needle with
  | nil => cases q <;> simp [containsSub]
  | cons c t =>
    simp only [List.cons_append, containsSub, Bool.or_eq_true]
    left
    rw [List.isPrefixOf_iff_prefix]
    exact ⟨q, by simp⟩

theorem containsSub_of_parts (needle p q : List Char) :
    containsSub needle (p ++ needle ++ q) = true := by
  induction p with
  | nil => simpa using containsSub_self_append needle q
  | cons c p ih =>
    simp only [List.cons_append, containsSub, Bool.or_eq_true]
    right
    simpa using ih

theorem snd_mem_of_mem_enum {α : Type} {l : List α} {p : Nat × α}
    (h : p ∈ l.enum) : p.2 ∈ l := by
  obtain ⟨i, x⟩ := p
  obtain ⟨-, hlt, hx⟩ := List.mem_enumFrom h
  have : x ∈ l := by
    rw [hx]
    exact l.getElem_mem (by simpa using hlt)
  exact this

theorem mem_enum_of_getElem? {α : Type} {l : List α} {i : Nat} {a : α}
    (h : l[i]? = some a) : (i, a) ∈ l.enum := by
  have h1 : l.enum[i]? = some (i, a) := by
    rw [List.getElem?_enum, h]
    rfl
  exact List.getElem?_mem h1

/-! ## C10 -/

/-- C10: `FundType.from_string` maps the empty string to `UNKNOWN`; it maps
every defined single-letter fund code, upper- or lower-case, to that fund;
and for single letters that are not codes the prefix/substring fallthrough
against member names can return a specific fund: 'F' yields
`FEDERAL_AID_INTERSTATE` and 'G' yields `GENERAL` rather than `UNKNOWN`. -/
theorem fromString_single_letter_behaviour :
    FundType.fromString [] = FundType.UNKNOWN ∧
    (∀ m ∈ FundType.members, FundType.fromString m.value.data = m ∧
       FundType.fromString (m.value.data.map Char.toLower) = m) ∧
    FundType.fromString ("F".data) = FundType.FEDERAL_AID_INTERSTATE ∧
    FundType.fromString ("G".data) = FundType.GENERAL := by
  decide

/-! ## C5: a veto change with no matching record is a no-op -/

/-- C5: applying a single override change whose key matches no record of the
collection returns the collection unchanged (same records, same order), and
`_apply_veto_change` being total, no error is raised. -/
theorem applyVetoChange_no_match (l : List BudgetAllocation) (c : VetoChange)
    (h : ∀ a ∈ l, matchesChange c a = false) :
    applyVetoChange l c = l := by
  unfold applyVetoChange
  have hnil : (l.enum.filter fun p => matchesChange c p.2) = [] := by
    rw [List.filter_eq_nil]
    intro p hp
    simp [h p.2 (snd_mem_of_mem_enum hp)]
  simp [hnil]

/-- A concrete allocation used by the witnesses. -/
def sampleAlloc : BudgetAllocation :=
  { program_id := some "AGR100", program_name := some "AGRICULTURE",
    department_code := some "AGR", department_name := some "AGR",
    «section» := BudgetSection.OPERATING, fund_type := FundType.GENERAL,
    fiscal_year := 2026, amount := 1500000 }

/-- Witness for C5: a change keyed to a program that is absent leaves a
one-record collection untouched. -/
theorem applyVetoChange_no_match_witness :
    applyVetoChange [sampleAlloc]
      { program_id := some "ZZZ999", fiscal_year := some 2026,
        amount := some 0 } = [sampleAlloc] :=
  applyVetoChange_no_match [sampleAlloc] _ (by decide)

/-! ## C6: the base collection's records survive the transform unchanged -/

theorem applyVetoChangeH_extends (h : Heap) (ids : List Nat) (c : VetoChange) :
    ∃ t, (applyVetoChangeH h ids c).1.recs = h.recs ++ t := by
  unfold applyVetoChangeH
  dsimp only
  split
  · exact ⟨[], by simp⟩
  · rename_i hne
    clear hne
    generalize (List.filter _ (List.enum ids)) = ms
    induction ms generalizing h ids with
    | nil => exact ⟨[], by simp⟩
    | cons p ms ih =>
      simp only [List.foldl_cons]
      obtain ⟨t, ht⟩ := ih ⟨h.recs ++ [applyChangeFields c (h.read p.2)]⟩ (ids.set p.1 h.recs.length)
      refine ⟨[applyChangeFields c (h.read p.2)] ++ t, ?_⟩
      rw [ht]
      simp [List.append_assoc]

theorem transformToPostVetoH_extends (h : Heap) (base : List Nat)
    (cs : List VetoChange) :
    ∃ t, (transformToPostVetoH h base cs).1.recs = h.recs ++ t := by
  unfold transformToPostVetoH
  generalize (base.map id) = ids
  induction cs generalizing h ids with
  | nil => exact ⟨[], by simp⟩
  | cons c cs ih =>
    simp only [List.foldl_cons]
    obtain ⟨t1, ht1⟩ := applyVetoChangeH_extends h ids c
    obtain ⟨t2, ht2⟩ := ih (applyVetoChangeH h ids c).1 (applyVetoChangeH h ids c).2
    refine ⟨t1 ++ t2, ?_⟩
    rw [ht2, ht1]
    simp

/-- C6: `transform_to_post_veto` never mutates the base collection.  In the
heap model, every store cell reachable from the base list of references
holds the same record value after the transform: matched records are
superseded by freshly allocated copies, never written in place, so the
pre-override and post-override collections coexist. -/
theorem transform_preserves_base (h : Heap) (base : List Nat)
    (cs : List VetoChange) (i : Nat) (_hmem : i ∈ base)
    (hlt : i < h.recs.length) :
    (transformToPostVetoH h base cs).1.recs[i]? = h.recs[i]? := by
  obtain ⟨t, ht⟩ := transformToPostVetoH_extends h base cs
  rw [ht, List.getElem?_append_left hlt]

/-- Witness for C6: a matched one-element base keeps its original record
value in the store after the transform. -/
theorem transform_preserves_base_witness :
    (transformToPostVetoH ⟨[sampleAlloc]⟩ [0]
      [{ program_id := some "AGR100", fiscal_year := some 2026,
         amount := some 7 }]).1.recs[0]? = some sampleAlloc := by
  have := transform_preserves_base ⟨[sampleAlloc]⟩ [0]
    [{ program_id := some "AGR100", fiscal_year := some 2026, amount := some 7 }]
    0 (by decide) (by decide)
  rw [this]
  rfl

/-! ## C7: zero grand total gives zero shares -/

theorem rowKeys_not_mem_seen {κ : Type} [DecidableEq κ]
    (rows : List (κ × Int)) (seen : List κ) (k : κ)
    (h : k ∈ rowKeys seen rows) : k ∉ seen := by
  induction rows generalizing seen with
  | nil => simp [rowKeys] at h
  | cons r rest ih =>
    rw [rowKeys] at h
    split at h
    · exact ih seen h
    · rcases List.mem_cons.mp h with h1 | h1
      · subst h1; assumption
      · have := ih _ h1
        intro hk
        exact this (List.mem_cons_of_mem _ hk)

theorem filter_key_split {κ : Type} [DecidableEq κ] (aKey : κ) (seen : List κ)
    (hA : aKey ∉ seen) (l : List (κ × Int)) :
    ((l.filter (fun r => r.1 = aKey)).map (fun r => r.2)).sum +
    ((l.filter (fun r => decide (r.1 ∉ aKey :: seen))).map (fun r => r.2)).sum =
    ((l.filter (fun r => decide (r.1 ∉ seen))).map (fun r => r.2)).sum := by
  induction l with
  | nil => simp
  | cons r rest ih =>
    rcases eq_or_ne r.1 aKey with h1 | h1
    · rw [List.filter_cons_of_pos (by simp [h1]),
          List.filter_cons_of_neg (by simp [h1]),
          List.filter_cons_of_pos (by simp [h1, hA])]
      simp only [List.map_cons, List.sum_cons]
      omega
    · rcases Decidable.em (r.1 ∈ seen) with h2 | h2
      · rw [List.filter_cons_of_neg (by simp [h1]),
            List.filter_cons_of_neg (by simp [h2]),
            List.filter_cons_of_neg (by simp [h2])]
        exact ih
      · rw [List.filter_cons_of_neg (by simp [h1]),
            List.filter_cons_of_pos (by simp [h1, h2]),
            List.filter_cons_of_pos (by simp [h2])]
        simp only [List.map_cons, List.sum_cons]
        omega

theorem rowKeys_sum {κ : Type} [DecidableEq κ] (rows : List (κ × Int))
    (seen : List κ) :
    ((rowKeys seen rows).map (fun k =>
        ((rows.filter (fun r => r.1 = k)).map (fun r => r.2)).sum)).sum =
    ((rows.filter (fun r => decide (r.1 ∉ seen))).map (fun r => r.2)).sum := by
  induction rows generalizing seen with
  | nil => simp [rowKeys]
  | cons r rest ih =>
    rw [rowKeys]
    split
    · rename_i hmem
      have hcong : ∀ k ∈ rowKeys seen rest,
          (fun k => (((r :: rest).filter (fun x => x.1 = k)).map (fun x => x.2)).sum) k =
          (fun k => ((rest.filter (fun x => x.1 = k)).map (fun x => x.2)).sum) k := by
        intro k hk
        have hne : ¬(r.1 = k) := by
          intro hrk
          exact rowKeys_not_mem_seen rest seen k hk (hrk ▸ hmem)
        simp only []
        rw [List.filter_cons_of_neg (by simp [hne])]
      rw [List.map_congr_left hcong, ih,
          List.filter_cons_of_neg (by simp [hmem])]
    · rename_i hmem
      simp only [List.map_cons, List.sum_cons]
      have hcong : ∀ k ∈ rowKeys (r.1 :: seen) rest,
          (fun k => (((r :: rest).filter (fun x => x.1 = k)).map (fun x => x.2)).sum) k =
          (fun k => ((rest.filter (fun x => x.1 = k)).map (fun x => x.2)).sum) k := by
        intro k hk
        have hne : ¬(r.1 = k) := by
          intro hrk
          exact rowKeys_not_mem_seen rest (r.1 :: seen) k hk (by simp [hrk])
        simp only []
        rw [List.filter_cons_of_neg (by simp [hne])]
      rw [List.map_congr_left hcong, ih,
          List.filter_cons_of_pos (by simp),
          List.filter_cons_of_pos (by simp [hmem])]
      simp only [List.map_cons, List.sum_cons]
      have hsplit := filter_key_split r.1 seen hmem rest
      omega

theorem groupSums_total {κ : Type} [DecidableEq κ] (rows : List (κ × Int)) :
    ((groupSums rows).map (fun r => r.2)).sum = (rows.map (fun r => r.2)).sum := by
  unfold groupSums
  rw [List.map_map]
  have := rowKeys_sum rows []
  simpa using this

/-- C7: when the grand total of the aggregated column is zero, every group
produced by `aggregate_by_category` is assigned a percentage share of `0`;
the `total > 0` guard means no division is attempted. -/
theorem aggregate_zero_total {κ : Type} [DecidableEq κ] (rows : List (κ × Int))
    (h : (rows.map (fun r => r.2)).sum = 0) (x : κ × Int × Rat)
    (hx : x ∈ aggregateByCategory rows) : x.2.2 = 0 := by
  unfold aggregateByCategory at hx
  split at hx
  · simp at hx
  · have htot : ((List.insertionSort (fun a b => a.2 ≥ b.2) (groupSums rows)).map
        (fun r => r.2)).sum = 0 := by
      have hperm := (List.perm_insertionSort (fun a b => a.2 ≥ b.2) (groupSums rows)).map
        (fun r : κ × Int => r.2)
      rw [hperm.sum_eq, groupSums_total, h]
    obtain ⟨r, hr, hrx⟩ := List.mem_map.mp hx
    rw [htot] at hrx
    simp only [gt_iff_lt, lt_irrefl, if_false] at hrx
    subst hrx
    rfl

/-- Rows with a zero grand total for the C7 witness. -/
def demoRows : List (String × Int) := [("a", 3), ("b", -3)]

/-- Witness for C7 at a concrete frame with grand total zero. -/
theorem aggregate_zero_total_witness :
    (demoRows.map (fun r => r.2)).sum = 0 ∧
    (("a", (3 : Int), (0 : Rat)) : String × Int × Rat).2.2 = 0 :=
  ⟨by decide, aggregate_zero_total demoRows (by decide) _ (by decide)⟩

/-! ## C8: validation reports a negative amount, referencing the record -/

/-- C8: `validate_budget_data` is a total function returning a flag and an
error list (it cannot raise), and a collection containing a record with
`amount = -1` is reported invalid, the negative-amount error string for that
record containing its program id and its fiscal year as substrings. -/
theorem validate_negative_amount (l : List BudgetAllocation) (rft : Bool)
    (i : Nat) (a : BudgetAllocation) (hget : l[i]? = some a)
    (hamt : a.amount = -1) :
    (validateBudgetData l rft).1 = false ∧
    negAmountError i a ∈ (validateBudgetData l rft).2 ∧
    containsSub (pidStr a).data (negAmountError i a).data = true ∧
    containsSub (toString a.fiscal_year).data (negAmountError i a).data = true := by
  have hne : l ≠ [] := by
    intro hl
    rw [hl] at hget
    simp at hget
  have hmemErr : negAmountError i a ∈
      ((l.enum.map (fun p => allocationErrors rft p.1 p.2)).flatten) := by
    rw [List.mem_flatten]
    have h1 : (i, a) ∈ l.enum := mem_enum_of_getElem? hget
    have h2 := List.mem_map_of_mem
      (fun p : Nat × BudgetAllocation => allocationErrors rft p.1 p.2) h1
    refine ⟨allocationErrors rft i a, h2, ?_⟩
    unfold allocationErrors
    have hneg : a.amount < 0 := by rw [hamt]; decide
    rw [if_pos hneg]
    simp
  constructor
  · unfold validateBudgetData
    rw [if_neg (by simpa using hne)]
    simp only [decide_eq_false_iff_not]
    intro hlen
    rw [List.length_eq_zero] at hlen
    rw [hlen] at hmemErr
    simp at hmemErr
  refine ⟨?_, ?_, ?_⟩
  · unfold validateBudgetData
    rw [if_neg (by simpa using hne)]
    exact hmemErr
  · have : (negAmountError i a).data =
        (("Allocation ".data) ++ (toString i).data ++ (" (Program ".data)) ++
        (pidStr a).data ++
        ((", FY".data) ++ (toString a.fiscal_year).data ++ ("): ".data) ++
         ("Negative amount: ".data) ++ (toString a.amount).data) := by
      simp [negAmountError, allocPrefix, mkS]
    rw [this]
    exact containsSub_of_parts _ _ _
  · have : (negAmountError i a).data =
        (("Allocation ".data) ++ (toString i).data ++ (" (Program ".data) ++
         (pidStr a).data ++ (", FY".data)) ++
        (toString a.fiscal_year).data ++
        (("): ".data) ++ ("Negative amount: ".data) ++ (toString a.amount).data) := by
      simp [negAmountError, allocPrefix, mkS]
    rw [this]
    exact containsSub_of_parts _ _ _

/-- The negative-amount record of the C8 witness. -/
def negAlloc : BudgetAllocation :=
  { sampleAlloc with program_id := some "NEG1", fiscal_year := 2027, amount := -1 }

/-- Witness for C8 on a concrete two-record collection. -/
theorem validate_negative_amount_witness :
    (validateBudgetData [sampleAlloc, negAlloc] true).1 = false ∧
    negAmountError 1 negAlloc ∈ (validateBudgetData [sampleAlloc, negAlloc] true).2 ∧
    containsSub (pidStr negAlloc).data (negAmountError 1 negAlloc).data = true ∧
    containsSub (toString negAlloc.fiscal_year).data (negAmountError 1 negAlloc).data = true :=
  validate_negative_amount [sampleAlloc, negAlloc] true 1 negAlloc (by decide) (by decide)

/-! ## C1: the round-trip fixture document -/

/-- The fixture document of the round-trip property: a program header for
`AGR100` followed by `OPERATING AGR 1,500,000A` and `AGR 250,000B`. -/
def fixtureDoc : Str :=
  ("1. AGR100 - AGRICULTURE\nOPERATING AGR 1,500,000A\nAGR 250,000B").data

/-- C1 counterexample: the fixture document does *not* yield exactly two
records — the parser emits four, two of them for fiscal year 2027, because
a line carrying a single amount token has its amount duplicated into the
second fiscal year (`fy27_amount = … or fy26_amount` at fast_parser.py
lines 509 and 615). -/
theorem fixture_yields_four_records :
    (extractAllocations fixtureDoc).length = 4 ∧
    ((extractAllocations fixtureDoc).filter
      (fun r => r.fiscal_year = 2027)).length = 2 := by
  decide

/-- FY2026 record of the `OPERATING AGR 1,500,000A` line. -/
def fixtureRecA26 : BudgetAllocation :=
  { program_id := some "AGR100", program_name := some "AGRICULTURE",
    department_code := some "AGR", department_name := some "AGR",
    «section» := BudgetSection.OPERATING, fund_type := FundType.GENERAL,
    fiscal_year := 2026, amount := 1500000,
    category := some "Uncategorized", line_number := some 2 }

/-- The duplicated FY2027 record of the same line. -/
def fixtureRecA27 : BudgetAllocation :=
  { fixtureRecA26 with fiscal_year := 2027 }

/-- FY2026 record of the `AGR 250,000B` line (its `program_name` comes from
`current_program or 'Unknown Program'` at fast_parser.py line 622). -/
def fixtureRecB26 : BudgetAllocation :=
  { program_id := some "AGR100", program_name := some "AGR100",
    department_code := some "AGR", department_name := some "AGR",
    «section» := BudgetSection.OPERATING, fund_type := FundType.SPECIAL,
    fiscal_year := 2026, amount := 250000,
    category := some "Uncategorized", line_number := none }

/-- The duplicated FY2027 record of the same line. -/
def fixtureRecB27 : BudgetAllocation :=
  { fixtureRecB26 with fiscal_year := 2027 }

/-- C1 amended: parsing the fixture yields exactly four records — the two
the claim lists, `(fiscal_year=2026, fund=A, amount=1500000)` and
`(fiscal_year=2026, fund=B, amount=250000)`, both `section=OPERATING`, plus
fiscal-year-2027 copies of each: a line encoding a single amount token
produces records for *both* fiscal years with the same amount in the
`section_with_amounts` and trailing-amount-search branches. -/
theorem fixture_parse_amended :
    extractAllocations fixtureDoc =
      [fixtureRecA26, fixtureRecA27, fixtureRecB26, fixtureRecB27] := by
  decide

/-! ## C3 and C9 counterexamples -/

/-- A document whose third line is an indented, letterless amount in
INVESTMENT CAPITAL context. -/
def capitalFixtureDoc : Str :=
  ("1. AGR100 - AGRICULTURE\nINVESTMENT CAPITAL\n  AGR 5,000").data

/-- The record the parser emits for that indented letterless token. -/
def capitalLetterlessRec : BudgetAllocation :=
  { program_id := some "AGR100", program_name := some "AGRICULTURE",
    department_code := some "AGR", department_name := some "AGR",
    «section» := BudgetSection.CAPITAL_IMPROVEMENT, fund_type := FundType.GENERAL,
    fiscal_year := 2026, amount := 5000, category := some "Uncategorized",
    notes := "Investment Capital - Fund Type: A", line_number := some 3 }

/-- C3 counterexample: while the running section is INVESTMENT CAPITAL, the
indented-continuation branch defaults a letterless amount token to general
fund `'A'` (fast_parser.py line 290), not to bond fund `'C'`: the single
emitted record has `fund_type = GENERAL` and `section =
CAPITAL_IMPROVEMENT`. -/
theorem capital_letterless_gets_general_fund :
    extractAllocations capitalFixtureDoc = [capitalLetterlessRec] ∧
    capitalLetterlessRec.fund_type = FundType.GENERAL ∧
    capitalLetterlessRec.«section» = BudgetSection.CAPITAL_IMPROVEMENT := by
  decide

/-- C3 amended: the fund-type default for a letterless first amount token is
branch-dependent, not context-dependent.  In the OPERATING-context emission
branches — `section_with_amounts` (letter group 4) and the trailing
`amount_matches` tuples (`match[2]`) — the default is general fund `'A'`.
In INVESTMENT CAPITAL context, the inline investment-capital header defaults
to bond fund `'C'`, but the indented continuation branch defaults to `'A'`
as well (fast_parser.py line 290), contradicting the context-sensitive rule
the claim states.  (Letterless *second* tokens inherit the first token's
fund letter, never the contextual default.) -/
theorem letterless_fund_defaults_amended :
    (∀ (ctx : ParseCtx) (i : Nat) (m : Caps), (capGet m 4).getD [] = [] →
      ∀ r ∈ ((sectionWithAmountsBranch ctx i m).2.getD []), r.fiscal_year = 2026 →
        r.fund_type = FundType.GENERAL) ∧
    (∀ (ctx : ParseCtx) (t : AmountTuple), t.m2 = [] →
      ∀ r ∈ (processTuple ctx t).2, r.fiscal_year = 2026 →
        r.fund_type = FundType.GENERAL) ∧
    (∀ (ctx : ParseCtx) (i : Nat) (m : Caps), (capGet m 3).getD [] = [] →
      ∀ r ∈ (investmentCapitalBranch ctx i m).2, r.fiscal_year = 2026 →
        r.fund_type = FundType.GENERAL_OBLIGATION_BOND) ∧
    (∀ (ctx : ParseCtx) (i : Nat) (line : Str) (m : Caps),
      reMatchAt patIndentedSingle line = none →
      reMatchAt patIndentedAmount line = some m →
      (capGet m 3).getD [] = [] →
      ∀ r ∈ (indentedBranch ctx i line).2, r.fiscal_year = 2026 →
        r.fund_type = FundType.GENERAL) := by
  refine ⟨?_, ?_, ?_, ?_⟩
  · intro ctx i m hg r hr hfy
    unfold sectionWithAmountsBranch at hr
    have hor : pyOr (capGet m 4) ("A".data) = "A".data := by
      cases hcap : capGet m 4 with
      | none => rfl
      | some s =>
        have hs : s = [] := by simpa [hcap] using hg
        subst hs
        rfl
    dsimp only at hr
    rw [hor] at hr
    split at hr
    · dsimp only [Option.getD] at hr
      rcases List.mem_append.mp hr with h | h
      · split at h
        · rw [List.mem_singleton] at h
          subst h
          rfl
        · simp at h
      · split at h
        · rw [List.mem_singleton] at h
          subst h
          simp at hfy
        · simp at h
    · simp at hr
  · intro ctx t hg r hr hfy
    unfold processTuple at hr
    rw [hg] at hr
    dsimp only at hr
    split at hr
    · simp only [List.isEmpty_nil, Bool.not_true, Bool.and_false] at hr
      split at hr
      · simp at hr
      · split at hr
        · simp at hr
        · rcases List.mem_append.mp hr with h | h
          · split at h
            · rw [List.mem_singleton] at h
              subst h
              rfl
            · simp at h
          · split at h
            · rw [List.mem_singleton] at h
              subst h
              simp at hfy
            · simp at h
    · simp at hr
  · intro ctx i m hg r hr hfy
    unfold investmentCapitalBranch at hr
    have hor : pyOr (capGet m 3) ("C".data) = "C".data := by
      cases hcap : capGet m 3 with
      | none => rfl
      | some s =>
        have hs : s = [] := by simpa [hcap] using hg
        subst hs
        rfl
    dsimp only at hr
    rw [hor] at hr
    rcases List.mem_append.mp hr with h | h
    · split at h
      · rw [List.mem_singleton] at h
        subst h
        rfl
      · simp at h
    · split at h
      · rw [List.mem_singleton] at h
        subst h
        simp at hfy
      · simp at h
  · intro ctx i line m h1 h2 hg r hr hfy
    unfold indentedBranch at hr
    rw [h1, h2] at hr
    have hor : pyOr (capGet m 3) ("A".data) = "A".data := by
      cases hcap : capGet m 3 with
      | none => rfl
      | some s =>
        have hs : s = [] := by simpa [hcap] using hg
        subst hs
        rfl
    dsimp only at hr
    rw [hor] at hr
    split at hr
    · simp at hr
    · split at hr
      · split at hr
        · rw [List.mem_singleton] at hr
          subst hr
          rfl
        · simp at hr
      · rcases List.mem_append.mp hr with h | h
        · split at h
          · rw [List.mem_singleton] at h
            subst h
            rfl
          · simp at h
        · split at h
          · rw [List.mem_singleton] at h
            subst h
            simp at hfy
          · simp at h

/-- Concrete captures of an `INVESTMENT CAPITAL AGR 100` header whose amount
token has no fund letter. -/
def demoCaps : Caps := [(1, ("AGR").data), (2, ("100").data), (3, [])]

/-- The record the investment-capital header emits for those captures. -/
def demoCapitalRec : BudgetAllocation :=
  { program_id := some "UNKNOWN", program_name := some "Unknown Program",
    department_code := some "AGR", department_name := some "AGR",
    «section» := BudgetSection.CAPITAL_IMPROVEMENT,
    fund_type := FundType.GENERAL_OBLIGATION_BOND, fiscal_year := 2026,
    amount := 100, category := some "Uncategorized", line_number := some 1 }

/-- Witness for the amended C3 theorem: the inline investment-capital branch
at concrete captures defaults a letterless token to bond fund `'C'`. -/
theorem letterless_fund_defaults_witness :
    demoCapitalRec.fund_type = FundType.GENERAL_OBLIGATION_BOND :=
  letterless_fund_defaults_amended.2.2.1 {} 0 demoCaps (by decide)
    demoCapitalRec (by decide) (by decide)

/-- A document consisting of one PDF-format OPERATING line whose FY2026
appropriation is zero. -/
def zeroAmountDoc : Str :=
  ("OPERATING AGR 0A B").data

/-- The zero-amount record that line produces. -/
def zeroAmountRec : BudgetAllocation :=
  { program_id := none, program_name := none,
    department_code := some "AGR", department_name := some "AGR",
    «section» := BudgetSection.OPERATING, fund_type := FundType.GENERAL,
    fiscal_year := 2026, amount := 0, category := some "Uncategorized",
    line_number := some 1 }

/-- C9 counterexample: zero-valued amount tokens can emit a record — the
inline PDF-format OPERATING branch (fast_parser.py lines 474–487) appends
its FY2026 record without any `> 0` guard, so `amount > 0` fails even
though `amount >= 0` holds. -/
theorem zero_amount_record_emitted :
    extractAllocations zeroAmountDoc = [zeroAmountRec] ∧
    zeroAmountRec.amount = 0 := by
  decide

/-! ## C9 amended: the extractor's record invariant

Every record any branch emits has a digit-string amount (hence `≥ 0`; the
zero-amount counterexample above shows `> 0` fails) and a fiscal year that
is one of the two biennium years, 2026 or 2027. -/

/-- The per-record invariant. -/
def okRec (r : BudgetAllocation) : Prop :=
  0 ≤ r.amount ∧ (r.fiscal_year = 2026 ∨ r.fiscal_year = 2027)

theorem okRec_investmentCapital (ctx : ParseCtx) (i : Nat) (m : Caps) :
    ∀ r ∈ (investmentCapitalBranch ctx i m).2, okRec r := by
  intro r hr
  unfold investmentCapitalBranch at hr
  iterate 16 (all_goals (first | split at hr | dsimp only at hr | skip))
  all_goals try simp only [List.mem_append, List.mem_singleton, List.mem_cons,
    List.not_mem_nil, or_false, false_or] at hr
  all_goals try (rcases hr with rfl | rfl | rfl | rfl)
  all_goals try (rcases hr with rfl | rfl | rfl)
  all_goals try (rcases hr with rfl | rfl)
  all_goals try (rcases hr with rfl)
  all_goals exact ⟨Int.natCast_nonneg _, by first | exact Or.inl rfl | exact Or.inr rfl⟩

theorem okRec_indented (ctx : ParseCtx) (i : Nat) (line : Str) :
    ∀ r ∈ (indentedBranch ctx i line).2, okRec r := by
  intro r hr
  unfold indentedBranch at hr
  iterate 16 (all_goals (first | split at hr | dsimp only at hr | skip))
  all_goals try simp only [List.mem_append, List.mem_singleton, List.mem_cons,
    List.not_mem_nil, or_false, false_or] at hr
  all_goals try (rcases hr with rfl | rfl | rfl | rfl)
  all_goals try (rcases hr with rfl | rfl | rfl)
  all_goals try (rcases hr with rfl | rfl)
  all_goals try (rcases hr with rfl)
  all_goals exact ⟨Int.natCast_nonneg _, by first | exact Or.inl rfl | exact Or.inr rfl⟩

theorem okRec_amountSuffix (ctx : ParseCtx) (i : Nat) (m : Caps) :
    ∀ r ∈ ((amountSuffixBranch ctx i m).2.getD []), okRec r := by
  intro r hr
  unfold amountSuffixBranch at hr
  iterate 16 (all_goals (first | split at hr | dsimp only at hr | skip))
  all_goals try simp only [Option.getD_some, List.mem_append, List.mem_singleton,
    List.mem_cons, List.not_mem_nil, or_false, false_or] at hr
  all_goals try (rcases hr with rfl | rfl | rfl | rfl)
  all_goals try (rcases hr with rfl | rfl | rfl)
  all_goals try (rcases hr with rfl | rfl)
  all_goals try (rcases hr with rfl)
  all_goals exact ⟨Int.natCast_nonneg _, by first | exact Or.inl rfl | exact Or.inr rfl⟩

theorem okRec_pdfOperating (ctx : ParseCtx) (i : Nat) (m : Caps) :
    ∀ r ∈ (pdfOperatingBranch ctx i m).2, okRec r := by
  intro r hr
  unfold pdfOperatingBranch at hr
  iterate 16 (all_goals (first | split at hr | dsimp only at hr | skip))
  all_goals try simp only [List.mem_append, List.mem_singleton, List.mem_cons,
    List.not_mem_nil, or_false, false_or] at hr
  all_goals try (rcases hr with rfl | rfl | rfl | rfl)
  all_goals try (rcases hr with rfl | rfl | rfl)
  all_goals try (rcases hr with rfl | rfl)
  all_goals try (rcases hr with rfl)
  all_goals exact ⟨Int.natCast_nonneg _, by first | exact Or.inl rfl | exact Or.inr rfl⟩

theorem okRec_sectionWithAmounts (ctx : ParseCtx) (i : Nat) (m : Caps) :
    ∀ r ∈ ((sectionWithAmountsBranch ctx i m).2.getD []), okRec r := by
  intro r hr
  unfold sectionWithAmountsBranch at hr
  iterate 16 (all_goals (first | split at hr | dsimp only at hr | skip))
  all_goals try simp only [Option.getD_some, List.mem_append, List.mem_singleton,
    List.mem_cons, List.not_mem_nil, or_false, false_or] at hr
  all_goals try (rcases hr with rfl | rfl | rfl | rfl)
  all_goals try (rcases hr with rfl | rfl | rfl)
  all_goals try (rcases hr with rfl | rfl)
  all_goals try (rcases hr with rfl)
  all_goals exact ⟨Int.natCast_nonneg _, by first | exact Or.inl rfl | exact Or.inr rfl⟩

theorem okRec_sectionStale (ctx : ParseCtx) (line : Str) :
    ∀ r ∈ ((sectionStaleBranch ctx line).2.getD []), okRec r := by
  intro r hr
  unfold sectionStaleBranch at hr
  iterate 16 (all_goals (first | split at hr | dsimp only at hr | skip))
  all_goals try simp only [Option.getD_some, List.mem_append, List.mem_singleton,
    List.mem_cons, List.not_mem_nil, or_false, false_or] at hr
  all_goals try (rcases hr with rfl | rfl | rfl | rfl)
  all_goals try (rcases hr with rfl | rfl | rfl)
  all_goals try (rcases hr with rfl | rfl)
  all_goals try (rcases hr with rfl)
  all_goals exact ⟨Int.natCast_nonneg _, by first | exact Or.inl rfl | exact Or.inr rfl⟩

theorem okRec_amountSearch (ctx : ParseCtx) (line : Str) :
    ∀ r ∈ (amountSearchBlock ctx line).2, okRec r := by
  intro r hr
  unfold amountSearchBlock at hr
  iterate 16 (all_goals (first | split at hr | dsimp only at hr | skip))
  all_goals try simp only [List.mem_append, List.mem_singleton, List.mem_cons,
    List.not_mem_nil, or_false, false_or] at hr
  all_goals try (rcases hr with rfl | rfl | rfl | rfl)
  all_goals try (rcases hr with rfl | rfl | rfl)
  all_goals try (rcases hr with rfl | rfl)
  all_goals try (rcases hr with rfl)
  all_goals exact ⟨Int.natCast_nonneg _, by first | exact Or.inl rfl | exact Or.inr rfl⟩

theorem okRec_notSection (ctx : ParseCtx) (i : Nat) (line : Str) :
    ∀ r ∈ (notSectionBlock ctx i line).2, okRec r := by
  intro r hr
  unfold notSectionBlock at hr
  split at hr
  · rename_i ctx2 heq
    simp at hr
  · rename_i ctx2 recsStale heq
    dsimp only at hr
    rcases List.mem_append.mp hr with h | h
    · have := okRec_sectionStale ctx line r
      rw [heq] at this
      exact this (by simpa using h)
    · exact okRec_amountSearch ctx2 line r h

set_option maxHeartbeats 1000000 in
theorem okRec_processTuple (ctx : ParseCtx) (t : AmountTuple) :
    ∀ r ∈ (processTuple ctx t).2, okRec r := by
  intro r hr
  unfold processTuple at hr
  iterate 16 (all_goals (first | split at hr | dsimp only at hr | skip))
  all_goals try simp only [List.mem_append, List.mem_singleton, List.mem_cons,
    List.not_mem_nil, or_false, false_or] at hr
  all_goals try (rcases hr with rfl | rfl | rfl | rfl)
  all_goals try (rcases hr with rfl | rfl | rfl)
  all_goals try (rcases hr with rfl | rfl)
  all_goals try (rcases hr with rfl)
  all_goals exact ⟨Int.natCast_nonneg _, by first | exact Or.inl rfl | exact Or.inr rfl⟩

theorem okRec_foldTuples (ts : List AmountTuple) :
    ∀ (st : ParseCtx × List BudgetAllocation), (∀ r ∈ st.2, okRec r) →
    ∀ r ∈ (ts.foldl (fun acc t =>
        ((processTuple acc.1 t).1, acc.2 ++ (processTuple acc.1 t).2)) st).2,
      okRec r := by
  induction ts with
  | nil =>
    intro st h r hr
    rw [List.foldl_nil] at hr
    exact h r hr
  | cons t ts ih =>
    intro st h r hr
    rw [List.foldl_cons] at hr
    refine ih _ ?_ r hr
    intro r' hr'
    dsimp only at hr'
    rcases List.mem_append.mp hr' with h1 | h1
    · exact h r' h1
    · exact okRec_processTuple st.1 t r' h1

theorem okRec_amountMatches (ctx : ParseCtx) (line : Str) :
    ∀ r ∈ (amountMatchesBlock ctx line).2, okRec r := by
  intro r hr
  unfold amountMatchesBlock at hr
  dsimp only at hr
  split at hr
  · refine okRec_foldTuples _ (ctx, []) ?_ r hr
    intro r' hr'
    simp at hr'
  · simp at hr

theorem okRec_sectionOnward (ctx : ParseCtx) (i : Nat) (line : Str) :
    ∀ r ∈ (sectionOnward ctx i line).2, okRec r := by
  intro r hr
  unfold sectionOnward at hr
  split at hr
  · rename_i m hm
    split at hr
    · rename_i ctx1 recs heq
      have := okRec_sectionWithAmounts ctx i m r
      rw [heq] at this
      exact this (by simpa using hr)
    · exact okRec_amountMatches _ line r hr
  · exact okRec_notSection ctx i line r hr

theorem okRec_operatingOnward (ctx : ParseCtx) (i : Nat)
    (original_line line : Str) :
    ∀ r ∈ (operatingOnward ctx i original_line line).2, okRec r := by
  intro r hr
  unfold operatingOnward at hr
  split at hr
  · split at hr
    · exact okRec_pdfOperating _ i _ r hr
    · exact okRec_sectionOnward _ i line r hr
  · exact okRec_sectionOnward ctx i line r hr

theorem okRec_processLine (ctx : ParseCtx) (i : Nat) (original_line : Str) :
    ∀ r ∈ (processLine ctx i original_line).2, okRec r := by
  intro r hr
  unfold processLine at hr
  dsimp only at hr
  split at hr
  · simp at hr
  · split at hr
    · simp at hr
    · split at hr
      · simp at hr
      · split at hr
        · exact okRec_investmentCapital ctx i _ r hr
        · split at hr
          · exact okRec_indented ctx i _ r hr
          · split at hr
            · rename_i m hm
              split at hr
              · rename_i ctx1 recs heq
                have := okRec_amountSuffix ctx i m r
                rw [heq] at this
                exact this (by simpa using hr)
              · exact okRec_operatingOnward _ i original_line _ r hr
            · exact okRec_operatingOnward ctx i original_line _ r hr

theorem okRec_extractLoop (lines : List Str) :
    ∀ (ctx : ParseCtx) (i : Nat), ∀ r ∈ extractLoop ctx i lines, okRec r := by
  induction lines with
  | nil =>
    intro ctx i r hr
    simp [extractLoop] at hr
  | cons l rest ih =>
    intro ctx i r hr
    rw [extractLoop] at hr
    rcases List.mem_append.mp hr with h | h
    · exact okRec_processLine ctx i l r h
    · exact ih _ _ r h

/-- C9 amended: every record emitted by `_extract_allocations`, on any
document, has `amount ≥ 0` and a fiscal year equal to 2026 or 2027.  The
strengthening `amount > 0` in the claim is false: the PDF-format OPERATING
branch emits zero-valued records (see the counterexample theorem). -/
theorem extract_invariant (content : Str) :
    ∀ r ∈ extractAllocations content,
      0 ≤ r.amount ∧ (r.fiscal_year = 2026 ∨ r.fiscal_year = 2027) := by
  intro r hr
  exact okRec_extractLoop (splitLines content) {} 0 r hr

/-- Witness for the amended C9 theorem at the zero-amount document. -/
theorem extract_invariant_witness :
    0 ≤ zeroAmountRec.amount ∧
    (zeroAmountRec.fiscal_year = 2026 ∨ zeroAmountRec.fiscal_year = 2027) :=
  extract_invariant zeroAmountDoc zeroAmountRec (by decide)

/-! ## C2: idempotence of override application

`_apply_veto_change` collects the matching positions once and then replaces
each with an updated copy computed from the original entry, so it acts
pointwise; `vetoStep` is that pointwise action. -/

/-- The per-record action of one change. -/
def vetoStep (c : VetoChange) (a : BudgetAllocation) : BudgetAllocation :=
  if matchesChange c a then applyChangeFields c a else a

/-- `from_string` inverts `.value` (the match at lines 81–84 of
budget_allocation.py hits first for every member's own code). -/
theorem fromString_value (ft : FundType) :
    FundType.fromString ft.value.data = ft := by
  cases ft <;> rfl

theorem getElem?_of_mem_enum {α : Type} {l : List α} {p : Nat × α}
    (h : p ∈ l.enum) : l[p.1]? = some p.2 := by
  obtain ⟨i, x⟩ := p
  obtain ⟨-, hlt, hx⟩ := List.mem_enumFrom h
  have hlt2 : i < l.length := by simpa using hlt
  rw [List.getElem?_eq_getElem hlt2]
  simp only [Nat.sub_zero] at hx
  rw [← hx]

theorem foldl_set_getElem? (c : VetoChange) (l : List BudgetAllocation) :
    ∀ (ms : List (Nat × BudgetAllocation)) (acc : List BudgetAllocation),
    (∀ p ∈ ms, l[p.1]? = some p.2 ∧ matchesChange c p.2 = true) →
    acc.length = l.length →
    (∀ j, acc[j]? = (l.map (vetoStep c))[j]? ∨
          ((∃ b, (j, b) ∈ ms) ∧ acc[j]? = l[j]?)) →
    ∀ (j : Nat),
      (ms.foldl (fun (acc2 : List BudgetAllocation) (p : Nat × BudgetAllocation) =>
            acc2.set p.1 (applyChangeFields c p.2)) acc)[j]?
          = (l.map (vetoStep c))[j]? := by
  intro ms
  induction ms with
  | nil =>
    intro acc _ _ hinv j
    rw [List.foldl_nil]
    rcases hinv j with h | ⟨⟨b, hb⟩, _⟩
    · exact h
    · simp at hb
  | cons p ms ih =>
    intro acc hms hlen hinv j
    rw [List.foldl_cons]
    have hp := hms p (List.mem_cons_self p ms)
    refine ih _ (fun q hq => hms q (List.mem_cons_of_mem p hq)) (by simp [hlen]) ?_ j
    intro j'
    rcases eq_or_ne p.1 j' with hj | hj
    · left
      subst hj
      have hlt : p.1 < l.length := by
        rcases List.getElem?_eq_some_iff.mp hp.1 with ⟨h, -⟩
        exact h
      rw [List.getElem?_set]
      rw [if_pos rfl, if_pos (by rw [hlen]; exact hlt)]
      rw [List.getElem?_map, hp.1]
      simp only [Option.map_some']
      unfold vetoStep
      rw [if_pos hp.2]
    · rw [List.getElem?_set, if_neg hj]
      rcases hinv j' with h | ⟨⟨b, hb⟩, h⟩
      · exact Or.inl h
      · rcases List.mem_cons.mp hb with hb1 | hb1
        · exfalso
          apply hj
          rw [← hb1]
        · exact Or.inr ⟨⟨b, hb1⟩, h⟩

/-- `_apply_veto_change` acts pointwise on the collection. -/
theorem applyVetoChange_eq_map (l : List BudgetAllocation) (c : VetoChange) :
    applyVetoChange l c = l.map (vetoStep c) := by
  unfold applyVetoChange
  dsimp only
  split
  · rename_i hemp
    have hnone : ∀ a ∈ l, matchesChange c a = false := by
      intro a ha
      by_contra hma
      rw [Bool.not_eq_false] at hma
      obtain ⟨i, hi⟩ := List.mem_iff_getElem?.mp ha
      have hmem : (i, a) ∈ l.enum.filter (fun p => matchesChange c p.2) :=
        List.mem_filter.mpr ⟨mem_enum_of_getElem? hi, hma⟩
      rw [List.isEmpty_iff] at hemp
      rw [hemp] at hmem
      simp at hmem
    have : l.map (vetoStep c) = l.map id := by
      apply List.map_congr_left
      intro a ha
      unfold vetoStep
      rw [if_neg (by rw [hnone a ha]; exact Bool.false_ne_true)]
      rfl
    rw [this, List.map_id]
  · apply List.ext_getElem?
    refine foldl_set_getElem? c l _ l ?_ rfl ?_
    · intro q hq
      have h1 := (List.mem_filter.mp hq).1
      have h2 := (List.mem_filter.mp hq).2
      exact ⟨getElem?_of_mem_enum h1, by simpa using h2⟩
    · intro j
      cases hj : l[j]? with
      | none => left; rw [List.getElem?_map, hj]; rfl
      | some a =>
        cases hma : matchesChange c a with
        | false =>
          left
          rw [List.getElem?_map, hj]
          simp only [Option.map_some']
          unfold vetoStep
          rw [if_neg (by rw [hma]; exact Bool.false_ne_true)]
        | true =>
          right
          refine ⟨⟨a, List.mem_filter.mpr ⟨mem_enum_of_getElem? hj, by simpa using hma⟩⟩, rfl⟩

/-- The key triple `_apply_veto_change` matches on. -/
def keyOf (a : BudgetAllocation) : Option String × Int × FundType :=
  (a.program_id, a.fiscal_year, a.fund_type)

theorem matchesChange_congr (c : VetoChange) {x y : BudgetAllocation}
    (h : keyOf x = keyOf y) : matchesChange c x = matchesChange c y := by
  unfold matchesChange
  rw [show x.program_id = y.program_id from congrArg (fun t => t.1) h,
      show x.fiscal_year = y.fiscal_year from congrArg (fun t => t.2.1) h,
      show x.fund_type = y.fund_type from congrArg (fun t => t.2.2) h]

/-- A matched update never changes the key: `program_id` and `fiscal_year`
are not substituted, and a provided `fund_type` string must have equalled
the record's own code for the match to fire, so re-resolving it through
`from_string` returns the same member. -/
theorem keyOf_applyChangeFields (c : VetoChange) (a : BudgetAllocation)
    (hm : matchesChange c a = true) :
    keyOf (applyChangeFields c a) = keyOf a := by
  unfold keyOf applyChangeFields
  dsimp only
  cases hft : c.fund_type with
  | none => rfl
  | some v =>
    have hv : a.fund_type.value = v := by
      unfold matchesChange at hm
      rw [hft] at hm
      simp only [Bool.and_eq_true, decide_eq_true_eq] at hm
      exact hm.2
    have hfs : FundType.fromString v.data = a.fund_type := by
      rw [← hv]
      exact fromString_value a.fund_type
    dsimp only
    rw [hfs]

theorem keyOf_vetoStep (c : VetoChange) (a : BudgetAllocation) :
    keyOf (vetoStep c a) = keyOf a := by
  unfold vetoStep
  split
  · exact keyOf_applyChangeFields c a (by assumption)
  · rfl

/-- Agreement of two records on everything a later application of `c`
cannot overwrite: the key triple, all untouched fields, and each
overwritable field for which `c` provides no value. -/
def AgreeExcept (c : VetoChange) (x y : BudgetAllocation) : Prop :=
  keyOf x = keyOf y ∧
  x.program_name = y.program_name ∧
  x.department_code = y.department_code ∧
  x.department_name = y.department_name ∧
  x.«section» = y.«section» ∧
  x.ceiling = y.ceiling ∧
  x.allocation_type = y.allocation_type ∧
  x.category = y.category ∧
  x.subcategory = y.subcategory ∧
  x.line_number = y.line_number ∧
  (c.amount = none → x.amount = y.amount) ∧
  (c.positions = none → x.positions = y.positions) ∧
  (c.notes = none → x.notes = y.notes)

theorem alloc_ext {x y : BudgetAllocation}
    (h1 : x.program_id = y.program_id) (h2 : x.program_name = y.program_name)
    (h3 : x.department_code = y.department_code)
    (h4 : x.department_name = y.department_name)
    (h5 : x.«section» = y.«section») (h6 : x.fund_type = y.fund_type)
    (h7 : x.fiscal_year = y.fiscal_year) (h8 : x.amount = y.amount)
    (h9 : x.positions = y.positions) (h10 : x.ceiling = y.ceiling)
    (h11 : x.allocation_type = y.allocation_type) (h12 : x.category = y.category)
    (h13 : x.subcategory = y.subcategory) (h14 : x.notes = y.notes)
    (h15 : x.line_number = y.line_number) : x = y := by
  cases x
  cases y
  simp_all

/-- A just-updated record agrees with its original on everything the same
change could overwrite again. -/
theorem agreeExcept_applyChangeFields (c : VetoChange) (a : BudgetAllocation)
    (hm : matchesChange c a = true) :
    AgreeExcept c (applyChangeFields c a) a := by
  refine ⟨keyOf_applyChangeFields c a hm, rfl, rfl, rfl, rfl, rfl, rfl, rfl, rfl, rfl,
    ?_, ?_, ?_⟩
  · intro h0
    unfold applyChangeFields
    rw [h0]
    rfl
  · intro h0
    unfold applyChangeFields
    rw [h0]
  · intro h0
    unfold applyChangeFields
    rw [h0]
    rfl

/-- `AgreeExcept c` is preserved by any later step. -/
theorem agreeExcept_vetoStep (c c' : VetoChange) {x y : BudgetAllocation}
    (h : AgreeExcept c x y) : AgreeExcept c (vetoStep c' x) (vetoStep c' y) := by
  obtain ⟨hk, h2, h3, h4, h5, h6, h7, h8, h9, h10, ha, hp, hn⟩ := h
  have hpid : x.program_id = y.program_id := congrArg (fun t => t.1) hk
  have hfy : x.fiscal_year = y.fiscal_year := congrArg (fun t => t.2.1) hk
  have hft : x.fund_type = y.fund_type := congrArg (fun t => t.2.2) hk
  have hmm : matchesChange c' x = matchesChange c' y := matchesChange_congr c' hk
  unfold vetoStep
  rw [hmm]
  split
  · unfold AgreeExcept keyOf applyChangeFields
    dsimp only
    refine ⟨?_, h2, h3, h4, h5, h6, h7, h8, h9, h10, ?_, ?_, ?_⟩
    · rw [hpid, hfy]
      cases c'.fund_type with
      | none => rw [hft]
      | some v => rfl
    · intro h0
      cases c'.amount with
      | none => exact ha h0
      | some w => rfl
    · intro h0
      cases c'.positions with
      | none => exact hp h0
      | some w => rfl
    · intro h0
      cases c'.notes with
      | none => exact hn h0
      | some w => rfl
  · exact ⟨hk, h2, h3, h4, h5, h6, h7, h8, h9, h10, ha, hp, hn⟩

/-- Two records agreeing except on `c`'s own fields become equal once `c` is
applied to both. -/
theorem applyChangeFields_eq_of_agree (c : VetoChange) {x y : BudgetAllocation}
    (h : AgreeExcept c x y) : applyChangeFields c x = applyChangeFields c y := by
  obtain ⟨hk, h2, h3, h4, h5, h6, h7, h8, h9, h10, ha, hp, hn⟩ := h
  have hpid : x.program_id = y.program_id := congrArg (fun t => t.1) hk
  have hfy : x.fiscal_year = y.fiscal_year := congrArg (fun t => t.2.1) hk
  have hft : x.fund_type = y.fund_type := congrArg (fun t => t.2.2) hk
  unfold applyChangeFields
  refine alloc_ext hpid h2 h3 h4 h5 ?_ hfy ?_ ?_ h6 h7 h8 h9 ?_ h10
  · dsimp only
    cases c.fund_type with
    | none => exact hft
    | some v => rfl
  · dsimp only
    cases hca : c.amount with
    | none => simpa using ha hca
    | some w => rfl
  · dsimp only
    cases hcp : c.positions with
    | none => exact hp hcp
    | some w => rfl
  · dsimp only
    cases hcn : c.notes with
    | none => simpa using hn hcn
    | some w => rfl

/-- The pointwise action of a whole change list. -/
def applyAll (cs : List VetoChange) (a : BudgetAllocation) : BudgetAllocation :=
  cs.foldl (fun a c => vetoStep c a) a

theorem keyOf_applyAll (cs : List VetoChange) (a : BudgetAllocation) :
    keyOf (applyAll cs a) = keyOf a := by
  induction cs generalizing a with
  | nil => rfl
  | cons c cs ih =>
    unfold applyAll at ih ⊢
    rw [List.foldl_cons, ih, keyOf_vetoStep]

theorem agreeExcept_applyAll (c : VetoChange) (cs : List VetoChange)
    {x y : BudgetAllocation} (h : AgreeExcept c x y) :
    AgreeExcept c (applyAll cs x) (applyAll cs y) := by
  induction cs generalizing x y with
  | nil => exact h
  | cons c' cs ih =>
    unfold applyAll at ih ⊢
    rw [List.foldl_cons, List.foldl_cons]
    exact ih (agreeExcept_vetoStep c c' h)

theorem applyAll_append (cs : List VetoChange) (c : VetoChange)
    (a : BudgetAllocation) :
    applyAll (cs ++ [c]) a = vetoStep c (applyAll cs a) := by
  unfold applyAll
  rw [List.foldl_append]
  rfl

theorem vetoStep_eq (c : VetoChange) (a : BudgetAllocation) :
    vetoStep c a = if matchesChange c a then applyChangeFields c a else a := rfl

/-- Pointwise idempotence of the whole change list. -/
theorem applyAll_idem (cs : List VetoChange) (a : BudgetAllocation) :
    applyAll cs (applyAll cs a) = applyAll cs a := by
  induction cs using List.reverseRecOn generalizing a with
  | nil => rfl
  | append_singleton cs c ih =>
    rw [applyAll_append, applyAll_append]
    set r := applyAll cs a with hrdef
    have h2 : applyAll cs r = r := by
      rw [hrdef]
      exact ih a
    cases hm : matchesChange c r with
    | false =>
      have h1 : vetoStep c r = r := by
        rw [vetoStep_eq, hm]
        simp
      rw [h1, h2, h1]
    | true =>
      have h1 : vetoStep c r = applyChangeFields c r := by
        rw [vetoStep_eq, hm]
        simp
      rw [h1]
      have hAE : AgreeExcept c (applyChangeFields c r) r :=
        agreeExcept_applyChangeFields c r hm
      have hAE2 : AgreeExcept c (applyAll cs (applyChangeFields c r)) r := by
        have h3 := agreeExcept_applyAll c cs hAE
        rw [h2] at h3
        exact h3
      have hm2 : matchesChange c (applyAll cs (applyChangeFields c r)) = true := by
        rw [matchesChange_congr c hAE2.1, hm]
      rw [vetoStep_eq, hm2]
      simp only [if_true]
      exact applyChangeFields_eq_of_agree c hAE2

/-- The change-list fold of `transform_to_post_veto` is a pointwise map. -/
theorem foldl_applyVetoChange_eq_map (cs : List VetoChange)
    (B : List BudgetAllocation) :
    cs.foldl applyVetoChange B = B.map (applyAll cs) := by
  induction cs generalizing B with
  | nil => exact (List.map_id B).symm
  | cons c cs ih =>
    rw [List.foldl_cons, ih, applyVetoChange_eq_map, List.map_map]
    rfl

/-- C2: override application is idempotent — applying the same change list a
second time to the already-transformed collection returns it unchanged,
because each change substitutes fields without altering its own match key. -/
theorem transform_idempotent (B : List BudgetAllocation) (cs : List VetoChange) :
    transformToPostVeto (transformToPostVeto B cs none) cs none =
    transformToPostVeto B cs none := by
  unfold transformToPostVeto
  dsimp only
  rw [foldl_applyVetoChange_eq_map, foldl_applyVetoChange_eq_map, List.map_map]
  simp only [Function.comp_id, List.map_id]
  rw [List.map_map]
  apply List.map_congr_left
  intro a _
  exact applyAll_idem cs a

/-! ## C4: duplicate suppression -/

theorem mem_foldr_append {κ α : Type} (f : κ → List α) (K : List κ) (b : α) :
    b ∈ K.foldr (fun k acc => f k ++ acc) [] ↔ ∃ k ∈ K, b ∈ f k := by
  induction K with
  | nil => simp
  | cons k K ih => simp [ih]

theorem filter_foldr_append_nil {κ α : Type} (p : α → Bool) (f : κ → List α)
    (K : List κ) (h : ∀ k ∈ K, (f k).filter p = []) :
    (K.foldr (fun k acc => f k ++ acc) []).filter p = [] := by
  induction K with
  | nil => rfl
  | cons k K ih =>
    rw [List.foldr_cons, List.filter_append, h k (List.mem_cons_self k K),
      List.nil_append]
    exact ih (fun k0 hk0 => h k0 (List.mem_cons_of_mem _ hk0))

theorem filter_foldr_append_single {κ α : Type} (p : α → Bool) (f : κ → List α)
    (K : List κ) (k : κ) (hnd : K.Nodup) (hk : k ∈ K)
    (h : ∀ k0 ∈ K, k0 ≠ k → (f k0).filter p = []) :
    (K.foldr (fun k acc => f k ++ acc) []).filter p = (f k).filter p := by
  induction K with
  | nil => cases hk
  | cons k1 K ih =>
    rw [List.foldr_cons, List.filter_append]
    rcases List.mem_cons.mp hk with rfl | hk2
    · have hrest : (K.foldr (fun k acc => f k ++ acc) []).filter p = [] := by
        apply filter_foldr_append_nil
        intro k0 hk0
        apply h k0 (List.mem_cons_of_mem _ hk0)
        intro he
        rw [he] at hk0
        exact (List.nodup_cons.mp hnd).1 hk0
      rw [hrest, List.append_nil]
    · have hne : k1 ≠ k := by
        intro he
        rw [he] at hnd
        exact (List.nodup_cons.mp hnd).1 hk2
      rw [h k1 (List.mem_cons_self _ _) hne, List.nil_append]
      exact ih (List.nodup_cons.mp hnd).2 hk2
        (fun k0 hk0 => h k0 (List.mem_cons_of_mem _ hk0))

theorem mem_firstKeys {κ : Type} [DecidableEq κ] (key : BudgetAllocation → κ)
    (seen : List κ) (l : List BudgetAllocation) (k : κ) :
    k ∈ firstKeys key seen l ↔ k ∉ seen ∧ ∃ a ∈ l, key a = k := by
  induction l generalizing seen with
  | nil => simp [firstKeys]
  | cons a l ih =>
    unfold firstKeys
    by_cases hmem : key a ∈ seen
    · rw [if_pos hmem, ih]
      constructor
      · rintro ⟨hns, b, hb, hkb⟩
        exact ⟨hns, b, List.mem_cons_of_mem _ hb, hkb⟩
      · rintro ⟨hns, b, hb, hkb⟩
        rcases List.mem_cons.mp hb with rfl | hb2
        · exact absurd (hkb ▸ hmem) hns
        · exact ⟨hns, b, hb2, hkb⟩
    · rw [if_neg hmem, List.mem_cons, ih]
      constructor
      · rintro (rfl | ⟨hns, b, hb, hkb⟩)
        · exact ⟨hmem, a, List.mem_cons_self _ _, rfl⟩
        · refine ⟨fun h0 => hns (List.mem_cons_of_mem _ h0), b,
            List.mem_cons_of_mem _ hb, hkb⟩
      · rintro ⟨hns, b, hb, hkb⟩
        by_cases hka : k = key a
        · exact Or.inl hka
        · refine Or.inr ⟨?_, b, ?_, hkb⟩
          · rw [List.mem_cons]
            rintro (h0 | h0)
            · exact hka h0
            · exact hns h0
          · rcases List.mem_cons.mp hb with rfl | hb2
            · exact absurd hkb.symm hka
            · exact hb2

theorem firstKeys_nodup {κ : Type} [DecidableEq κ] (key : BudgetAllocation → κ)
    (seen : List κ) (l : List BudgetAllocation) : (firstKeys key seen l).Nodup := by
  induction l generalizing seen with
  | nil => exact List.nodup_nil
  | cons a l ih =>
    unfold firstKeys
    split
    · exact ih seen
    · refine List.nodup_cons.mpr ⟨?_, ih _⟩
      intro hmem
      exact ((mem_firstKeys key _ l _).mp hmem).1 (List.mem_cons_self _ _)

theorem mem_processAmountGroup {b : BudgetAllocation} {g : List BudgetAllocation} {amt : Int}
    (h : b ∈ processAmountGroup g amt) : b ∈ g := by
  unfold processAmountGroup at h
  split at h
  · exact List.take_subset _ _ h
  · exact h

theorem mem_amountSubgroupFold {b : BudgetAllocation} {group : List BudgetAllocation}
    (h : b ∈ amountSubgroupFold group) : b ∈ group := by
  unfold amountSubgroupFold at h
  obtain ⟨amt, hamt, hb⟩ := (mem_foldr_append
    (fun amt =>
      processAmountGroup (group.filter (fun a => decide (a.amount = amt))) amt)
    _ b).mp h
  exact List.mem_of_mem_filter (mem_processAmountGroup hb)

/-- C4: duplicate suppression acts per `(program_id, fiscal_year, section)`
group and per exact amount: if such a subgroup has more than one record and
the shared amount exceeds 100,000,000 only its first record in original
order survives; otherwise (singleton subgroup, or amount at or below the
threshold) every record of the subgroup survives unchanged. -/
theorem remove_duplicates_amount_groups (l : List BudgetAllocation)
    (k : Option String × Int × BudgetSection) (amt : Int) :
    (removeSuspiciousDuplicates l).filter
        (fun a => decide (dupKey a = k) && decide (a.amount = amt)) =
      if (l.filter
            (fun a => decide (dupKey a = k) && decide (a.amount = amt))).length > 1
          ∧ amt > 100000000
      then (l.filter
            (fun a => decide (dupKey a = k) && decide (a.amount = amt))).take 1
      else l.filter
            (fun a => decide (dupKey a = k) && decide (a.amount = amt)) := by
  by_cases hl : l = []
  · subst hl
    simp only [removeSuspiciousDuplicates, List.isEmpty_nil, if_true,
      List.filter_nil]
    split <;> rfl
  · set P : BudgetAllocation → Bool :=
      fun a => decide (dupKey a = k) && decide (a.amount = amt) with hP
    unfold removeSuspiciousDuplicates
    rw [if_neg (by simp [hl])]
    by_cases hG : l.filter P = []
    · have hnil : ∀ k0 ∈ firstKeys dupKey [] l,
          ((fun k0 => amountSubgroupFold
            (l.filter (fun a => decide (dupKey a = k0)))) k0).filter P = [] := by
        intro k0 _
        rw [List.filter_eq_nil]
        intro b hb hPb
        have hbl : b ∈ l := List.mem_of_mem_filter (mem_amountSubgroupFold hb)
        have : b ∈ l.filter P := List.mem_filter.mpr ⟨hbl, hPb⟩
        rw [hG] at this
        cases this
      refine Eq.trans (filter_foldr_append_nil P _ _ hnil) ?_
      rw [hG]
      simp
    · obtain ⟨b, hb⟩ := List.exists_mem_of_ne_nil _ hG
      have hbP := List.mem_filter.mp hb
      have hbl : b ∈ l := hbP.1
      have hbdup : dupKey b = k ∧ b.amount = amt := by
        have := hbP.2
        rw [hP] at this
        simpa using this
      have hkK : k ∈ firstKeys dupKey [] l :=
        (mem_firstKeys dupKey [] l k).mpr ⟨by simp, b, hbl, hbdup.1⟩
      have hothers : ∀ k0 ∈ firstKeys dupKey [] l, k0 ≠ k →
          ((fun k0 => amountSubgroupFold
            (l.filter (fun a => decide (dupKey a = k0)))) k0).filter P = [] := by
        intro k0 _ hne
        rw [List.filter_eq_nil]
        intro c hc hPc
        have hcdup : dupKey c = k0 :=
          by simpa using (List.mem_filter.mp (mem_amountSubgroupFold hc)).2
        have hcP : dupKey c = k := by
          rw [hP] at hPc
          exact (by simpa using hPc : dupKey c = k ∧ c.amount = amt).1
        exact hne (hcdup ▸ hcP)
      have h1 := filter_foldr_append_single P
        (fun k0 => amountSubgroupFold
          (l.filter (fun a => decide (dupKey a = k0))))
        (firstKeys dupKey [] l) k (firstKeys_nodup dupKey [] l) hkK hothers
      set group : List BudgetAllocation := l.filter (fun a => decide (dupKey a = k)) with hgroup
      have hbg : b ∈ group := by
        rw [hgroup]
        exact List.mem_filter.mpr ⟨hbl, by simp [hbdup.1]⟩
      have hamtA : amt ∈ firstKeys (fun a => a.amount) [] group :=
        (mem_firstKeys (fun a => a.amount) [] group amt).mpr
          ⟨by simp, b, hbg, hbdup.2⟩
      have hothers2 : ∀ amt0 ∈ firstKeys (fun a => a.amount) [] group, amt0 ≠ amt →
          ((fun amt0 => processAmountGroup
            (group.filter (fun a => decide (a.amount = amt0))) amt0) amt0).filter
            P = [] := by
        intro amt0 _ hne
        rw [List.filter_eq_nil]
        intro c hc hPc
        have hca : c.amount = amt0 :=
          by simpa using (List.mem_filter.mp (mem_processAmountGroup hc)).2
        have hcP : c.amount = amt := by
          rw [hP] at hPc
          exact (by simpa using hPc : dupKey c = k ∧ c.amount = amt).2
        exact hne (hca ▸ hcP)
      have h2 : (amountSubgroupFold group).filter P =
          (processAmountGroup (group.filter (fun a => decide (a.amount = amt)))
            amt).filter P := by
        unfold amountSubgroupFold
        exact filter_foldr_append_single P
          (fun amt0 => processAmountGroup
            (group.filter (fun a => decide (a.amount = amt0))) amt0)
          (firstKeys (fun a => a.amount) [] group) amt
          (firstKeys_nodup (fun a => a.amount) [] group) hamtA hothers2
      have h3 : group.filter (fun a => decide (a.amount = amt)) = l.filter P := by
        rw [hgroup, List.filter_filter]
        apply List.filter_congr
        intro a _
        simp [hP, Bool.and_comm]
      have h4 : ((processAmountGroup (l.filter P) amt).filter P) =
          processAmountGroup (l.filter P) amt :=
        List.filter_eq_self.mpr
          (fun a ha => (List.mem_filter.mp (mem_processAmountGroup ha)).2)
      have h5 : processAmountGroup (l.filter P) amt =
          if (l.filter P).length > 1 ∧ amt > 100000000
          then (l.filter P).take 1
          else l.filter P := by
        unfold processAmountGroup
        by_cases hc : (l.filter P).length > 1 ∧ amt > 100000000
        · rw [if_pos (by simp [hc.1, hc.2]), if_pos hc]
        · rw [if_neg (by simpa [Bool.and_eq_true, decide_eq_true_eq] using hc),
            if_neg hc]
      exact h1.trans (h2.trans (by rw [h3, h4, h5]))


end BudgetPrimer
